import Mathlib

set_option maxHeartbeats 1000000

/-!
Verification development for
`localstack-core/localstack/services/sqs/resource_providers/aws_sqs_queue.py`,
the `AWS::SQS::Queue` CloudFormation resource provider.

The property bags handled by the provider are JSON-shaped Python values.
They are embedded as the mutual inductive family `PyVal` / `PyList` / `PyDict`
below (dictionaries are ordered association lists with string keys, matching
Python dictionaries as they arise from deployed CloudFormation templates).
-/

mutual
/-- A JSON-shaped Python value as it occurs in a queue resource property bag. -/
inductive PyVal where
  | none : PyVal
  | bool (b : Bool) : PyVal
  | int (n : Int) : PyVal
  | str (s : String) : PyVal
  | pylist (elems : PyList) : PyVal
  | dict (entries : PyDict) : PyVal

/-- A Python list of `PyVal`s. -/
inductive PyList where
  | nil : PyList
  | cons (hd : PyVal) (tl : PyList) : PyList

/-- A Python dictionary with string keys, in insertion order. -/
inductive PyDict where
  | nil : PyDict
  | cons (key : String) (val : PyVal) (tl : PyDict) : PyDict
end

/-- `d.get(key)` returning the first binding, `Option.none` when absent. -/
def PyDict.get? : PyDict → String → Option PyVal
  | .nil, _ => Option.none
  | .cons k v t, key => if k = key then some v else PyDict.get? t key

/-- `d[key] = v`: replace the first binding of `key`, or append a new one. -/
def PyDict.set : PyDict → String → PyVal → PyDict
  | .nil, key, v => .cons key v .nil
  | .cons k w t, key, v => if k = key then .cons k v t else .cons k w (PyDict.set t key v)

/-- Python `d.get(key, default)`. -/
def pygetD (d : PyDict) (key : String) (default : PyVal) : PyVal :=
  (d.get? key).getD default

/-- Python `d.get(key)` (default `None`). -/
def pyget (d : PyDict) (key : String) : PyVal :=
  pygetD d key .none

/-- Python truthiness of a property value. -/
def PyVal.truthy : PyVal → Bool
  | .none => false
  | .bool b => b
  | .int n => n != 0
  | .str s => s != ""
  | .pylist .nil => false
  | .pylist (.cons _ _) => true
  | .dict .nil => false
  | .dict (.cons _ _ _) => true

mutual
/-- Python `==` on property values: booleans and integers compare numerically
(`True == 1`), lists and dictionaries compare entrywise.  Dictionary
comparison here follows entry order; the provider only ever compares queue
names and fifo flags, where no dictionaries occur. -/
def pyEq : PyVal → PyVal → Bool
  | .none, .none => true
  | .bool a, .bool b => a == b
  | .bool a, .int m => (if a then (1 : Int) else 0) == m
  | .int n, .bool b => n == (if b then (1 : Int) else 0)
  | .int n, .int m => n == m
  | .str a, .str b => a == b
  | .pylist a, .pylist b => pyEqList a b
  | .dict a, .dict b => pyEqDict a b
  | _, _ => false

/-- Entrywise Python `==` on lists. -/
def pyEqList : PyList → PyList → Bool
  | .nil, .nil => true
  | .cons a t, .cons b u => pyEq a b && pyEqList t u
  | _, _ => false

/-- Entrywise Python `==` on dictionaries. -/
def pyEqDict : PyDict → PyDict → Bool
  | .nil, .nil => true
  | .cons k v t, .cons l w u => k == l && pyEq v w && pyEqDict t u
  | _, _ => false
end

/-! ### Characters and digits -/

/-- The character `\x7b` (left curly brace). -/
def lcurl : Char := Char.ofNat 123

/-- The character `\x7d` (right curly brace). -/
def rcurl : Char := Char.ofNat 125

/-- The ten decimal digit characters. -/
def digitChars : List Char := "0123456789".data

/-- The decimal digit character for `d < 10`. -/
def digitChar (d : Nat) : Char := digitChars.getD d '0'

/-- Decimal digits of a natural number, most significant first. -/
def natChars (n : Nat) : List Char :=
  if n < 10 then [digitChar n]
  else natChars (n / 10) ++ [digitChar (n % 10)]
  termination_by n
  decreasing_by exact Nat.div_lt_self (by omega) (by omega)

/-- Python `str` of an integer: decimal digits with a leading minus sign. -/
def intChars (n : Int) : List Char :=
  if n < 0 then '-' :: natChars n.natAbs else natChars n.toNat

/-- Python `str` of an integer, as a string. -/
def intToStr (n : Int) : String := ⟨intChars n⟩

/-- Numeric value of a list of decimal digit characters. -/
def natFromDigits (ds : List Char) : Nat :=
  ds.foldl (fun a c => 10 * a + (c.toNat - 48)) 0

/-! ### Hexadecimal escapes -/

/-- The sixteen lowercase hexadecimal digit characters. -/
def hexDigits : List Char := "0123456789abcdef".data

/-- The lowercase hexadecimal digit character for `d < 16`. -/
def hexChar (d : Nat) : Char := hexDigits.getD d '0'

/-- Four lowercase hexadecimal digits of `n < 0x10000` (as in a JSON escape). -/
def hex4 (n : Nat) : List Char :=
  [hexChar (n / 4096 % 16), hexChar (n / 256 % 16), hexChar (n / 16 % 16), hexChar (n % 16)]

/-- Value of one hexadecimal digit character (upper or lower case). -/
def hexVal (c : Char) : Option Nat :=
  if 48 ≤ c.toNat ∧ c.toNat ≤ 57 then some (c.toNat - 48)
  else if 97 ≤ c.toNat ∧ c.toNat ≤ 102 then some (c.toNat - 87)
  else if 65 ≤ c.toNat ∧ c.toNat ≤ 70 then some (c.toNat - 55)
  else Option.none

/-- Value of four hexadecimal digit characters. -/
def hexQuad (h1 h2 h3 h4 : Char) : Option Nat :=
  match hexVal h1, hexVal h2, hexVal h3, hexVal h4 with
  | some a, some b, some c, some d => some (4096 * a + 256 * b + 16 * c + d)
  | _, _, _, _ => Option.none

/-! ### JSON string escaping (as `json.dumps` with its `ensure_ascii` default) -/

/-- Escape of one character in a JSON string literal: `"` and backslash get a
backslash escape, the usual control shorthands apply, printable ASCII passes
through, any other character in the basic plane becomes one `\uXXXX` escape,
and characters above the basic plane become a surrogate `\uXXXX\uXXXX` pair. -/
def escapeChar (c : Char) : List Char :=
  if c = '"' then ['\\', '"']
  else if c = '\\' then ['\\', '\\']
  else if c = '\n' then ['\\', 'n']
  else if c = '\r' then ['\\', 'r']
  else if c = '\t' then ['\\', 't']
  else if c.toNat = 8 then ['\\', 'b']
  else if c.toNat = 12 then ['\\', 'f']
  else if 32 ≤ c.toNat ∧ c.toNat < 127 then [c]
  else if c.toNat < 65536 then '\\' :: 'u' :: hex4 c.toNat
  else
    '\\' :: 'u' :: hex4 (55296 + (c.toNat - 65536) / 1024) ++
      ('\\' :: 'u' :: hex4 (56320 + (c.toNat - 65536) % 1024))

/-- Escape of a whole string body. -/
def escList : List Char → List Char
  | [] => []
  | c :: cs => escapeChar c ++ escList cs

/-- Decode one escape sequence (the characters after a backslash), returning
the decoded character and the remaining input.  A high surrogate escape must
be followed by a low surrogate escape; the pair is recombined. -/
def parseLowSurrogate (m : Nat) : List Char → Option (Char × List Char)
  | b1 :: u2 :: g1 :: g2 :: g3 :: g4 :: rest3 =>
    if b1 = '\\' ∧ u2 = 'u' then
      (hexQuad g1 g2 g3 g4).bind fun m2 =>
        if 56320 ≤ m2 ∧ m2 ≤ 57343 then
          some (Char.ofNat (65536 + 1024 * (m - 55296) + (m2 - 56320)), rest3)
        else Option.none
    else Option.none
  | _ => Option.none

def parseEsc : List Char → Option (Char × List Char)
  | [] => Option.none
  | c :: rest =>
    if c = 'u' then
      match rest with
      | h1 :: h2 :: h3 :: h4 :: rest2 =>
        (hexQuad h1 h2 h3 h4).bind fun m =>
          if 55296 ≤ m ∧ m ≤ 56319 then parseLowSurrogate m rest2
          else if 56320 ≤ m ∧ m ≤ 57343 then Option.none
          else some (Char.ofNat m, rest2)
      | _ => Option.none
    else if c = '"' then some ('"', rest)
    else if c = '\\' then some ('\\', rest)
    else if c = '/' then some ('/', rest)
    else if c = 'n' then some ('\n', rest)
    else if c = 'r' then some ('\r', rest)
    else if c = 't' then some ('\t', rest)
    else if c = 'b' then some (Char.ofNat 8, rest)
    else if c = 'f' then some (Char.ofNat 12, rest)
    else Option.none

/-- Scan a JSON string body up to the closing quote, decoding escapes.
The fuel bounds the number of decoded characters. -/
def parseStrBody : Nat → List Char → Option (List Char × List Char)
  | 0, _ => Option.none
  | _ + 1, [] => Option.none
  | f + 1, c :: rest =>
    if c = '"' then some ([], rest)
    else if c = '\\' then
      match parseEsc rest with
      | some (d, rest2) => (parseStrBody f rest2).map fun p => (d :: p.1, p.2)
      | Option.none => Option.none
    else if c.toNat < 32 then Option.none
    else (parseStrBody f rest).map fun p => (c :: p.1, p.2)

/-! ### JSON serialization (`json.dumps` with its default separators) -/

mutual
/-- Characters of the JSON rendering of a value (Python `json.dumps` with the
default separators, so elements are joined by a comma and a space and keys are
separated from values by a colon and a space). -/
def dumpV : PyVal → List Char
  | .none => "null".data
  | .bool true => "true".data
  | .bool false => "false".data
  | .int n => intChars n
  | .str s => '"' :: (escList s.data ++ ['"'])
  | .pylist l => '[' :: dumpLBody l
  | .dict d => lcurl :: dumpDBody d

/-- Body of a JSON array after the opening bracket, closing bracket included. -/
def dumpLBody : PyList → List Char
  | .nil => [']']
  | .cons h t => dumpV h ++ dumpLSep t

/-- Separator-led continuation of a JSON array body: either the closing
bracket, or a comma, a space and the remaining elements. -/
def dumpLSep : PyList → List Char
  | .nil => [']']
  | .cons h t => ',' :: ' ' :: (dumpV h ++ dumpLSep t)

/-- Body of a JSON object after the opening brace, closing brace included. -/
def dumpDBody : PyDict → List Char
  | .nil => [rcurl]
  | .cons k v t =>
    '"' :: (escList k.data ++ ('"' :: ':' :: ' ' :: dumpV v)) ++ dumpDSep t

/-- Separator-led continuation of a JSON object body: either the closing
brace, or a comma, a space and the remaining entries. -/
def dumpDSep : PyDict → List Char
  | .nil => [rcurl]
  | .cons k v t =>
    ',' :: ' ' :: ('"' :: (escList k.data ++ ('"' :: ':' :: ' ' :: dumpV v)) ++ dumpDSep t)
end

/-- Python `json.dumps`. -/
def json_dumps (v : PyVal) : String := ⟨dumpV v⟩

mutual
/-- Nesting measure of a value, bounding the parser fuel it needs. -/
def sizeV : PyVal → Nat
  | .none => 1
  | .bool _ => 1
  | .int _ => 1
  | .str _ => 1
  | .pylist l => 1 + sizeL l
  | .dict d => 1 + sizeD d

/-- Nesting measure of a list body. -/
def sizeL : PyList → Nat
  | .nil => 1
  | .cons h t => 1 + max (sizeV h) (sizeL t)

/-- Nesting measure of a dictionary body. -/
def sizeD : PyDict → Nat
  | .nil => 1
  | .cons _ v t => 1 + max (sizeV v) (sizeD t)
end

/-! ### JSON parsing (`json.loads`) -/

/-- JSON whitespace. -/
def isWs (c : Char) : Bool := c == ' ' || c == '\t' || c == '\n' || c == '\x0d'

/-- Drop leading JSON whitespace. -/
def skipWs (cs : List Char) : List Char := cs.dropWhile isWs

/-- Parse a nonempty run of decimal digits into its value. -/
def parseDigits (cs : List Char) : Option (Nat × List Char) :=
  let ds := cs.takeWhile Char.isDigit
  if ds.isEmpty then Option.none
  else some (natFromDigits ds, cs.dropWhile Char.isDigit)

/-- Consume an expected literal prefix. -/
def expectChars : List Char → List Char → Option (List Char)
  | [], rest => some rest
  | e :: es, c :: rest => if c = e then expectChars es rest else Option.none
  | _ :: _, [] => Option.none

mutual
/-- Parse one JSON value; the fuel bounds the nesting depth. -/
def parseVal : Nat → List Char → Option (PyVal × List Char)
  | 0, _ => Option.none
  | f + 1, cs =>
    match skipWs cs with
    | [] => Option.none
    | c :: rest =>
      if c = 'n' then
        (expectChars ['u', 'l', 'l'] rest).map fun r2 => (.none, r2)
      else if c = 't' then
        (expectChars ['r', 'u', 'e'] rest).map fun r2 => (.bool true, r2)
      else if c = 'f' then
        (expectChars ['a', 'l', 's', 'e'] rest).map fun r2 => (.bool false, r2)
      else if c = '"' then
        (parseStrBody rest.length rest).map fun p => (.str ⟨p.1⟩, p.2)
      else if c = '[' then
        match skipWs rest with
        | [] => Option.none
        | d :: rest2 =>
          if d = ']' then some (.pylist .nil, rest2)
          else (parseListElems f (d :: rest2)).map fun p => (.pylist p.1, p.2)
      else if c = lcurl then
        match skipWs rest with
        | [] => Option.none
        | d :: rest2 =>
          if d = rcurl then some (.dict .nil, rest2)
          else (parseDictEntries f (d :: rest2)).map fun p => (.dict p.1, p.2)
      else if c = '-' then
        (parseDigits rest).map fun p => (.int (-(p.1 : Int)), p.2)
      else if c.isDigit then
        (parseDigits (c :: rest)).map fun p => (.int (p.1 : Int), p.2)
      else Option.none

/-- Parse the elements of a nonempty JSON array, closing bracket included. -/
def parseListElems : Nat → List Char → Option (PyList × List Char)
  | 0, _ => Option.none
  | f + 1, cs =>
    (parseVal f cs).bind fun p =>
      match skipWs p.2 with
      | [] => Option.none
      | c :: rest2 =>
        if c = ',' then (parseListElems f rest2).map fun q => (.cons p.1 q.1, q.2)
        else if c = ']' then some (.cons p.1 .nil, rest2)
        else Option.none

/-- Parse the entries of a nonempty JSON object, closing brace included. -/
def parseDictEntries : Nat → List Char → Option (PyDict × List Char)
  | 0, _ => Option.none
  | f + 1, cs =>
    match skipWs cs with
    | [] => Option.none
    | c :: rest =>
      if c = '"' then
        (parseStrBody rest.length rest).bind fun pk =>
          match skipWs pk.2 with
          | [] => Option.none
          | d :: rest2 =>
            if d = ':' then
              (parseVal f rest2).bind fun pv =>
                match skipWs pv.2 with
                | [] => Option.none
                | e :: rest3 =>
                  if e = ',' then
                    (parseDictEntries f rest3).map fun q => (.cons ⟨pk.1⟩ pv.1 q.1, q.2)
                  else if e = rcurl then some (.cons ⟨pk.1⟩ pv.1 .nil, rest3)
                  else Option.none
            else Option.none
      else Option.none
end

/-- Python `json.loads` (restricted to the JSON texts this provider emits):
parse one value and require only trailing whitespace. -/
def json_loads (s : String) : Option PyVal :=
  match parseVal (s.data.length + 1) s.data with
  | some (v, rest) => if skipWs rest = [] then some v else Option.none
  | Option.none => Option.none

/-- The remaining input may not continue a decimal literal. -/
def DelimOk : List Char → Prop
  | [] => True
  | c :: _ => c.isDigit = false

/-! ### The resource-provider interface -/

/-- A distinguishable service-client error: the queue-does-not-exist signal,
or any other service failure. -/
inductive SqsError where
  | queueDoesNotExist : SqsError
  | other (msg : String) : SqsError

/-- An uncaught Python exception escaping a provider operation. -/
inductive PyErr where
  | keyError (key : String) : PyErr
  | typeError (msg : String) : PyErr
  | assertionError : PyErr
  | sqsFailure (e : SqsError) : PyErr

/-- One call performed against the queueing service, with its arguments.
`Option.none` for the attributes or tags of `createQueue` records that the
argument was not passed at all. -/
inductive SqsCall where
  | createQueue (name : String) (attributes : Option (List (String × String)))
      (tags : Option (List (String × String))) : SqsCall
  | getQueueAttributes (url : String) (names : List String) : SqsCall
  | getQueueUrl (name : String) : SqsCall
  | deleteQueue (url : String) : SqsCall

/-- The queueing-service client consumed by the provider, over an abstract
service state `σ`: each operation returns its payload or an error, and the
state after the call. -/
structure SqsClient (σ : Type) where
  create_queue : σ → String → Option (List (String × String)) →
    Option (List (String × String)) → Except SqsError String × σ
  get_queue_attributes : σ → String → List String →
    Except SqsError (List (String × String)) × σ
  get_queue_url : σ → String → Except SqsError String × σ
  delete_queue : σ → String → Except SqsError Unit × σ

/-- Operation status of a progress event. -/
inductive OperationStatus where
  | SUCCESS : OperationStatus
  | FAILED : OperationStatus
  | IN_PROGRESS : OperationStatus

/-- The provider's result envelope. -/
structure ProgressEvent where
  status : OperationStatus
  resource_model : PyDict
  custom_context : PyVal

/-- The orchestrator's request envelope. -/
structure ResourceRequest where
  desired_state : PyDict
  previous_state : Option PyDict
  stack_name : String
  logical_resource_id : String
  custom_context : PyVal

/-- Python subscript `d[key]`, raising `KeyError` when absent. -/
def pyItem (d : PyDict) (key : String) : Except PyErr PyVal :=
  match d.get? key with
  | some v => Except.ok v
  | Option.none => Except.error (.keyError key)

/-- Coerce a property value to the string the service client expects;
a non-string value is a client-side parameter validation error. -/
def asStr : PyVal → Except PyErr String
  | .str s => Except.ok s
  | _ => Except.error (.typeError "expected a string value")

/-- The tag pairs of `{t["Key"]: t["Value"] for t in model.get("Tags", [])}`
(line 120), in template order. -/
def tagPairs : PyList → Except PyErr (List (String × String))
  | .nil => Except.ok []
  | .cons t rest =>
    match t with
    | .dict td =>
      match pyItem td "Key" with
      | Except.error e => Except.error e
      | Except.ok kv =>
        match asStr kv with
        | Except.error e => Except.error e
        | Except.ok k =>
          match pyItem td "Value" with
          | Except.error e => Except.error e
          | Except.ok vv =>
            match asStr vv with
            | Except.error e => Except.error e
            | Except.ok v => (tagPairs rest).map fun ps => (k, v) :: ps
    | _ => Except.error (.typeError "tag entries must be mappings")

/-- Tags argument of the create call: iterating anything but a list of
key/value mappings raises. -/
def tagsToDict : PyVal → Except PyErr (List (String × String))
  | .pylist l => tagPairs l
  | _ => Except.error (.typeError "Tags must be a list of tag entries")

/-- Modelled from the spec: `util.generate_default_name` from
`localstack.services.cloudformation.provider_utils` is imported by the
provider, but its source is not part of this unit.  Per the spec (sections
4.1 and 8) it derives a queue name deterministically from the stack name and
the logical resource id; it is modelled as joining the two with a fixed
eight-character tail. -/
def generate_default_name (stack_name logical_resource_id : String) : String :=
  stack_name ++ "-" ++ logical_resource_id ++ "-00000000"

/-- Python string slicing `s[:-5]`: all characters but the last five. -/
def pySliceDropLast5 (s : String) : String := ⟨s.data.take (s.data.length - 5)⟩

/-- The queue-name derivation shared by `create` (lines 102-114) and the
replacement path of `update` (lines 201-208): the generated default name,
with its last five characters replaced by the literal suffix `.fifo` when
the FifoQueue flag is truthy. -/
def deriveDefaultQueueName (stack_name logical_resource_id : String) (fifo : Bool) : String :=
  if fifo then
    pySliceDropLast5 (generate_default_name stack_name logical_resource_id) ++ ".fifo"
  else generate_default_name stack_name logical_resource_id

/-- The declared attribute names (lines 45-60). -/
def _queue_attribute_list : List String :=
  ["ContentBasedDeduplication", "DeduplicationScope", "DelaySeconds", "FifoQueue",
   "FifoThroughputLimit", "KmsDataKeyReusePeriodSeconds", "KmsMasterKeyId",
   "MaximumMessageSize", "MessageRetentionPeriod", "ReceiveMessageWaitTimeSeconds",
   "RedriveAllowPolicy", "RedrivePolicy", "SqsManagedSseEnabled", "VisibilityTimeout"]

/-- The loop body of `_compile_sqs_queue_attributes` over the remaining
attribute names: `None` values are skipped, strings pass through, booleans
render lowercase, dictionaries are serialized with `json.dumps`, integers
render decimal, anything else raises `TypeError` (lines 230-251). -/
def compileAttrs (properties : PyDict) : List String → Except PyErr (List (String × String))
  | [] => Except.ok []
  | k :: ks =>
    match pyget properties k with
    | .none => compileAttrs properties ks
    | .str s => (compileAttrs properties ks).map fun r => (k, s) :: r
    | .bool b => (compileAttrs properties ks).map fun r => (k, if b then "true" else "false") :: r
    | .dict d => (compileAttrs properties ks).map fun r => (k, json_dumps (.dict d)) :: r
    | .int n => (compileAttrs properties ks).map fun r => (k, intToStr n) :: r
    | .pylist _ =>
      Except.error (.typeError ("cannot convert attribute " ++ k ++ ", unhandled type list"))

/-- `SQSQueueProvider._compile_sqs_queue_attributes` (lines 221-251). -/
def _compile_sqs_queue_attributes (properties : PyDict) :
    Except PyErr (List (String × String)) :=
  compileAttrs properties _queue_attribute_list

namespace SQSQueueProvider

/-- `SQSQueueProvider.create` (lines 67-133): derive a queue name when the
desired one is falsy, compile the attribute map, create the queue with the
compiled attributes and the tags mapping, then set the read-only `QueueUrl`
and `Arn` from the service responses and return SUCCESS.  The result carries
the progress event or the uncaught exception, the service state after the
calls that were performed, and those calls in order. -/
def createModel (request : ResourceRequest) : PyDict :=
  let model := request.desired_state
  -- lines 99-100: `if model.get("FifoQueue", False): model["FifoQueue"] = model["FifoQueue"]`
  let model := if (pygetD model "FifoQueue" (.bool false)).truthy then
      model.set "FifoQueue" (pygetD model "FifoQueue" (.bool false))
    else model
  -- lines 102-114
  let queue_name := pyget model "QueueName"
  if ¬ queue_name.truthy then
    model.set "QueueName"
      (.str (deriveDefaultQueueName request.stack_name request.logical_resource_id
        (pyget model "FifoQueue").truthy))
  else model

def create {σ : Type} (client : SqsClient σ) (request : ResourceRequest) (s : σ) :
    Except PyErr ProgressEvent × σ × List SqsCall :=
  -- lines 96-114
  let model := createModel request
  -- line 116
  match _compile_sqs_queue_attributes model with
  | Except.error e => (Except.error e, s, [])
  | Except.ok attributes =>
    -- lines 117-121
    match pyItem model "QueueName" with
    | Except.error e => (Except.error e, s, [])
    | Except.ok qnv =>
      match asStr qnv with
      | Except.error e => (Except.error e, s, [])
      | Except.ok qname =>
        match tagsToDict (pygetD model "Tags" (.pylist .nil)) with
        | Except.error e => (Except.error e, s, [])
        | Except.ok tags =>
          match client.create_queue s qname (some attributes) (some tags) with
          | (Except.error e, s1) =>
            (Except.error (.sqsFailure e), s1,
              [SqsCall.createQueue qname (some attributes) (some tags)])
          | (Except.ok url, s1) =>
            -- lines 123-127
            let model := model.set "QueueUrl" (.str url)
            match client.get_queue_attributes s1 url ["QueueArn"] with
            | (Except.error e, s2) =>
              (Except.error (.sqsFailure e), s2,
                [SqsCall.createQueue qname (some attributes) (some tags),
                 SqsCall.getQueueAttributes url ["QueueArn"]])
            | (Except.ok attrsResp, s2) =>
              match attrsResp.lookup "QueueArn" with
              | Option.none =>
                (Except.error (.keyError "QueueArn"), s2,
                  [SqsCall.createQueue qname (some attributes) (some tags),
                   SqsCall.getQueueAttributes url ["QueueArn"]])
              | some arn =>
                let model := model.set "Arn" (.str arn)
                (Except.ok ⟨OperationStatus.SUCCESS, model, request.custom_context⟩, s2,
                  [SqsCall.createQueue qname (some attributes) (some tags),
                   SqsCall.getQueueAttributes url ["QueueArn"]])

/-- `SQSQueueProvider.delete` (lines 148-169): resolve the queue URL from the
previous state's `QueueName` and delete it; the queue-does-not-exist error
from either call is converted to SUCCESS, everything else propagates. -/
def delete {σ : Type} (client : SqsClient σ) (request : ResourceRequest) (s : σ) :
    Except PyErr ProgressEvent × σ × List SqsCall :=
  match request.previous_state with
  | Option.none => (Except.error (.typeError "previous_state is not subscriptable"), s, [])
  | some prev =>
    match pyItem prev "QueueName" with
    | Except.error e => (Except.error e, s, [])
    | Except.ok qnv =>
      match asStr qnv with
      | Except.error e => (Except.error e, s, [])
      | Except.ok qn =>
        match client.get_queue_url s qn with
        | (Except.error SqsError.queueDoesNotExist, s1) =>
          (Except.ok ⟨OperationStatus.SUCCESS, request.desired_state, .none⟩, s1,
            [SqsCall.getQueueUrl qn])
        | (Except.error e, s1) =>
          (Except.error (.sqsFailure e), s1, [SqsCall.getQueueUrl qn])
        | (Except.ok url, s1) =>
          match client.delete_queue s1 url with
          | (Except.error SqsError.queueDoesNotExist, s2) =>
            (Except.ok ⟨OperationStatus.SUCCESS, request.desired_state, .none⟩, s2,
              [SqsCall.getQueueUrl qn, SqsCall.deleteQueue url])
          | (Except.error e, s2) =>
            (Except.error (.sqsFailure e), s2,
              [SqsCall.getQueueUrl qn, SqsCall.deleteQueue url])
          | (Except.ok _, s2) =>
            (Except.ok ⟨OperationStatus.SUCCESS, request.desired_state, .none⟩, s2,
              [SqsCall.getQueueUrl qn, SqsCall.deleteQueue url])

/-- The `should_replace` computation of `SQSQueueProvider.update`
(lines 190-196), with `prevName` the already looked-up
`previous_state["QueueName"]`. -/
def update_should_replace (desired prev : PyDict) (prevName : PyVal) : Bool :=
  !pyEq (pygetD desired "QueueName" prevName) prevName ||
    !pyEq (pygetD desired "FifoQueue" (pyget prev "FifoQueue")) (pyget prev "FifoQueue")

/-- `SQSQueueProvider.update` (lines 171-219): assert a previous state,
short-circuit with the previous state when no replacement is needed,
otherwise delete the old queue by its previous URL, create a new queue under
a freshly derived default name (passing neither attributes nor tags), fetch
its ARN and return SUCCESS. -/
def update {σ : Type} (client : SqsClient σ) (request : ResourceRequest) (s : σ) :
    Except PyErr ProgressEvent × σ × List SqsCall :=
  let model := request.desired_state
  match request.previous_state with
  | Option.none => (Except.error .assertionError, s, [])
  | some prev =>
    match pyItem prev "QueueName" with
    | Except.error e => (Except.error e, s, [])
    | Except.ok prevName =>
      if ¬ update_should_replace model prev prevName then
        (Except.ok ⟨OperationStatus.SUCCESS, prev, .none⟩, s, [])
      else
        -- lines 201-208, copied from the create handler
        let queue_name := deriveDefaultQueueName request.stack_name
          request.logical_resource_id (pyget model "FifoQueue").truthy
        -- lines 210-219
        match pyItem prev "QueueUrl" with
        | Except.error e => (Except.error e, s, [])
        | Except.ok urlv =>
          match asStr urlv with
          | Except.error e => (Except.error e, s, [])
          | Except.ok prevUrl =>
            match client.delete_queue s prevUrl with
            | (Except.error e, s1) =>
              (Except.error (.sqsFailure e), s1, [SqsCall.deleteQueue prevUrl])
            | (Except.ok _, s1) =>
              match client.create_queue s1 queue_name Option.none Option.none with
              | (Except.error e, s2) =>
                (Except.error (.sqsFailure e), s2,
                  [SqsCall.deleteQueue prevUrl,
                   SqsCall.createQueue queue_name Option.none Option.none])
              | (Except.ok url, s2) =>
                let model := model.set "QueueUrl" (.str url)
                match client.get_queue_attributes s2 url ["QueueArn"] with
                | (Except.error e, s3) =>
                  (Except.error (.sqsFailure e), s3,
                    [SqsCall.deleteQueue prevUrl,
                     SqsCall.createQueue queue_name Option.none Option.none,
                     SqsCall.getQueueAttributes url ["QueueArn"]])
                | (Except.ok attrsResp, s3) =>
                  match attrsResp.lookup "QueueArn" with
                  | Option.none =>
                    (Except.error (.keyError "QueueArn"), s3,
                      [SqsCall.deleteQueue prevUrl,
                       SqsCall.createQueue queue_name Option.none Option.none,
                       SqsCall.getQueueAttributes url ["QueueArn"]])
                  | some arn =>
                    let model := model.set "Arn" (.str arn)
                    (Except.ok ⟨OperationStatus.SUCCESS, model, .none⟩, s3,
                      [SqsCall.deleteQueue prevUrl,
                       SqsCall.createQueue queue_name Option.none Option.none,
                       SqsCall.getQueueAttributes url ["QueueArn"]])

end SQSQueueProvider

/-- One queue of the modelled service. -/
structure QueueRec where
  name : String
  url : String
  arn : String

/-- Deterministic queue URL as assigned by the modelled service. -/
def urlOfName (name : String) : String :=
  "https://sqs.us-east-1.amazonaws.com/000000000000/" ++ name

/-- Deterministic queue ARN as assigned by the modelled service. -/
def arnOfName (name : String) : String :=
  "arn:aws:sqs:us-east-1:000000000000:" ++ name

/-- Modelled from the spec: the queueing service behind the client interface
of section 6 (`CreateQueue`, `GetQueueAttributes`, `GetQueueUrl`,
`DeleteQueue`, plus a distinguishable queue-does-not-exist error signal); the
service implementation is not part of this unit.  The state is the list of
live queues; creating an existing name returns its URL, looking up or
deleting a missing queue fails with the queue-does-not-exist signal. -/
def localSqs : SqsClient (List QueueRec) where
  create_queue s name _ _ :=
    match s.find? (fun q => q.name == name) with
    | some q => (Except.ok q.url, s)
    | Option.none =>
      (Except.ok (urlOfName name), s ++ [⟨name, urlOfName name, arnOfName name⟩])
  get_queue_attributes s url names :=
    match s.find? (fun q => q.url == url) with
    | some q =>
      (Except.ok (if names.contains "QueueArn" then [("QueueArn", q.arn)] else []), s)
    | Option.none => (Except.error .queueDoesNotExist, s)
  get_queue_url s name :=
    match s.find? (fun q => q.name == name) with
    | some q => (Except.ok q.url, s)
    | Option.none => (Except.error .queueDoesNotExist, s)
  delete_queue s url :=
    match s.find? (fun q => q.url == url) with
    | some _ => (Except.ok (), s.filter (fun q => !(q.url == url)))
    | Option.none => (Except.error .queueDoesNotExist, s)

/-- Modelled from the spec, for comparison with the code's `should_replace`
(claim C1): replacement is needed iff the desired `QueueName` — defaulting to
the previous `QueueName` when the desired state omits the key, in which case
nothing differs — differs from the previous `QueueName`, or the desired
`FifoQueue` flag — defaulting likewise to the previous `FifoQueue` value —
differs from the previous `FifoQueue` value. -/
def spec_should_replace (desired prev : PyDict) (prevName : PyVal) : Prop :=
  (match desired.get? "QueueName" with
   | some v => pyEq v prevName = false
   | Option.none => False) ∨
  (match desired.get? "FifoQueue" with
   | some v => pyEq v (pyget prev "FifoQueue") = false
   | Option.none => False)

def prevC2 : PyDict :=
  .cons "QueueName" (.str "alpha") (.cons "VisibilityTimeout" (.int 30) .nil)

def desiredC2 : PyDict :=
  .cons "QueueName" (.str "alpha") (.cons "VisibilityTimeout" (.int 60) .nil)

def requestC2 : ResourceRequest := ⟨desiredC2, some prevC2, "stack", "queue", .none⟩

def requestC3 : ResourceRequest :=
  ⟨.cons "FifoQueue" (.bool true) .nil, Option.none, "stack", "queue", .none⟩

/-- What claim C4 states about one declared attribute `k` of a compiled
attribute map `result`: absent or `None` values are omitted; a string passes
through; a boolean renders as lowercase `true`/`false`; a dictionary renders
as JSON text that parses back to the same dictionary; an integer renders as
decimal text that reads back as the same integer. -/
def CompiledAttrOk (props : PyDict) (result : List (String × String)) (k : String) : Prop :=
  (props.get? k = Option.none ∨ props.get? k = some .none →
    result.lookup k = Option.none) ∧
  (∀ s, props.get? k = some (.str s) → result.lookup k = some s) ∧
  (∀ b, props.get? k = some (.bool b) →
    result.lookup k = some (if b then "true" else "false")) ∧
  (∀ d, props.get? k = some (.dict d) → result.lookup k = some (json_dumps (.dict d)) ∧
    json_loads (json_dumps (.dict d)) = some (.dict d)) ∧
  (∀ n, props.get? k = some (.int n) → result.lookup k = some (intToStr n) ∧
    json_loads (intToStr n) = some (.int n))

def propsC4 : PyDict :=
  .cons "DelaySeconds" (.int 300)
    (.cons "FifoQueue" (.bool true)
      (.cons "KmsMasterKeyId" (.str "alias-key")
        (.cons "MessageRetentionPeriod" .none
          (.cons "RedrivePolicy" (.dict (.cons "maxReceiveCount" (.int 3) .nil)) .nil))))

def resultC4 : List (String × String) :=
  [("DelaySeconds", intToStr 300), ("FifoQueue", "true"),
   ("KmsMasterKeyId", "alias-key"),
   ("RedrivePolicy", json_dumps (.dict (.cons "maxReceiveCount" (.int 3) .nil)))]

def propsC5 : PyDict :=
  .cons "QueueName" (.str "q") (.cons "DelaySeconds" (.pylist (.cons (.int 1) .nil)) .nil)

def requestC6 : ResourceRequest :=
  ⟨.cons "QueueName" (.str "myq") .nil, Option.none, "stack", "queue", .none⟩

def evC6 : ProgressEvent :=
  ⟨OperationStatus.SUCCESS,
    (((.cons "QueueName" (.str "myq") .nil : PyDict)).set "QueueUrl"
      (.str (urlOfName "myq"))).set "Arn" (.str (arnOfName "myq")), .none⟩

def stateC6 : List QueueRec := [⟨"myq", urlOfName "myq", arnOfName "myq"⟩]

def traceC6 : List SqsCall :=
  [SqsCall.createQueue "myq" (some []) (some []),
   SqsCall.getQueueAttributes (urlOfName "myq") ["QueueArn"]]

/-- A service client on which every call fails with a non-recoverable
error, to exercise the propagation paths. -/
def failCallClient : SqsClient Unit where
  create_queue s _ _ _ := (Except.error (SqsError.other "boom"), s)
  get_queue_attributes s _ _ := (Except.error (SqsError.other "boom"), s)
  get_queue_url s _ := (Except.error (SqsError.other "boom"), s)
  delete_queue s _ := (Except.error (SqsError.other "boom"), s)

/-- A service client that resolves queue URLs but fails to delete, to
exercise the propagation path of the second delete call. -/
def failDeleteClient : SqsClient Unit where
  create_queue s _ _ _ := (Except.error (SqsError.other "boom"), s)
  get_queue_attributes s _ _ := (Except.error (SqsError.other "boom"), s)
  get_queue_url s name := (Except.ok (urlOfName name), s)
  delete_queue s _ := (Except.error (SqsError.other "boom"), s)

def requestC7 : ResourceRequest :=
  ⟨.nil, some (.cons "QueueName" (.str "q7") .nil), "stack", "queue", .none⟩

def stateC7 : List QueueRec := [⟨"q7", urlOfName "q7", arnOfName "q7"⟩]

def stateC8 : List QueueRec := [⟨"old", urlOfName "old", arnOfName "old"⟩]

def stateC8after : List QueueRec :=
  [⟨deriveDefaultQueueName "stack" "queue" false,
    urlOfName (deriveDefaultQueueName "stack" "queue" false),
    arnOfName (deriveDefaultQueueName "stack" "queue" false)⟩]

def prevC8 : PyDict :=
  .cons "QueueName" (.str "old")
    (.cons "QueueUrl" (.str (urlOfName "old")) .nil)

def requestC8 : ResourceRequest :=
  ⟨.cons "QueueName" (.str "new") .nil, some prevC8, "stack", "queue", .none⟩

/-! ### Properties -/

mutual
theorem pyEq_refl : (v : PyVal) → pyEq v v = true
  | .none => rfl
  | .bool b => by simp [pyEq]
  | .int n => by simp [pyEq]
  | .str s => by simp [pyEq]
  | .pylist a => by simpa [pyEq] using pyEqList_refl a
  | .dict a => by simpa [pyEq] using pyEqDict_refl a

theorem pyEqList_refl : (l : PyList) → pyEqList l l = true
  | .nil => rfl
  | .cons a t => by simp [pyEqList, pyEq_refl a, pyEqList_refl t]

theorem pyEqDict_refl : (d : PyDict) → pyEqDict d d = true
  | .nil => rfl
  | .cons k v t => by simp [pyEqDict, pyEq_refl v, pyEqDict_refl t]
end

theorem PyDict.get?_set_self : (d : PyDict) → (k : String) → (v : PyVal) →
    (d.set k v).get? k = some v
  | .nil, k, v => by simp [PyDict.set, PyDict.get?]
  | .cons key val tl, k, v => by
    by_cases h : key = k <;>
      simp [PyDict.set, PyDict.get?, h, PyDict.get?_set_self tl k v]

theorem PyDict.get?_set_ne : (d : PyDict) → (k j : String) → (v : PyVal) →
    k ≠ j → (d.set k v).get? j = d.get? j
  | .nil, k, j, v, h => by simp [PyDict.set, PyDict.get?, h]
  | .cons key val tl, k, j, v, h => by
    by_cases hk : key = k
    · subst hk
      simp [PyDict.set, PyDict.get?, h]
    · simp [PyDict.set, PyDict.get?, hk, PyDict.get?_set_ne tl k j v h]

theorem PyDict.set_self : (d : PyDict) → (k : String) → (v : PyVal) →
    d.get? k = some v → d.set k v = d
  | .nil, k, v, h => by simp [PyDict.get?] at h
  | .cons key val tl, k, v, h => by
    by_cases hk : key = k
    · subst hk
      simp [PyDict.get?] at h
      simp [PyDict.set, h]
    · simp [PyDict.get?, hk] at h
      simp [PyDict.set, hk, PyDict.set_self tl k v h]

theorem Char.toNat_valid (c : Char) :
    c.toNat < 0xd800 ∨ (0xdfff < c.toNat ∧ c.toNat < 0x110000) := by
  rcases c.valid with h | ⟨h1, h2⟩
  · exact Or.inl (UInt32.toNat_lt_of_lt (by decide) h)
  · exact Or.inr ⟨UInt32.lt_toNat_of_lt (by decide) h1,
      UInt32.toNat_lt_of_lt (by decide) h2⟩

theorem digitChar_isDigit {d : Nat} (h : d < 10) : (digitChar d).isDigit = true := by
  interval_cases d <;> decide

theorem toNat_digitChar {d : Nat} (h : d < 10) : (digitChar d).toNat - 48 = d := by
  interval_cases d <;> decide

theorem natChars_ne_nil (n : Nat) : natChars n ≠ [] := by
  rw [natChars]
  split <;> simp

theorem natChars_all_digits (n : Nat) : ∀ c ∈ natChars n, c.isDigit = true := by
  induction n using natChars.induct with
  | case1 n h =>
    rw [natChars, if_pos h]
    simpa using digitChar_isDigit h
  | case2 n h ih =>
    rw [natChars, if_neg h]
    intro c hc
    rcases List.mem_append.mp hc with hc | hc
    · exact ih c hc
    · simp at hc
      subst hc
      exact digitChar_isDigit (Nat.mod_lt _ (by omega))

theorem natFromDigits_natChars (n : Nat) : natFromDigits (natChars n) = n := by
  induction n using natChars.induct with
  | case1 n h =>
    rw [natChars, if_pos h]
    simp [natFromDigits, toNat_digitChar h]
  | case2 n h ih =>
    rw [natChars, if_neg h]
    have hmod : (digitChar (n % 10)).toNat - 48 = n % 10 :=
      toNat_digitChar (Nat.mod_lt _ (by omega))
    simp only [natFromDigits, List.foldl_append, List.foldl_cons, List.foldl_nil] at ih ⊢
    rw [ih, hmod]
    omega

theorem takeWhile_append_all {p : Char → Bool} :
    ∀ (xs ys : List Char), (∀ c ∈ xs, p c = true) →
      List.takeWhile p (xs ++ ys) = xs ++ List.takeWhile p ys := by
  intro xs ys h
  induction xs with
  | nil => simp
  | cons c t ih =>
    have hc : p c = true := h c (by simp)
    simp only [List.cons_append, List.takeWhile_cons, hc, if_pos]
    rw [ih fun d hd => h d (by simp [hd])]

theorem dropWhile_append_all {p : Char → Bool} :
    ∀ (xs ys : List Char), (∀ c ∈ xs, p c = true) →
      List.dropWhile p (xs ++ ys) = List.dropWhile p ys := by
  intro xs ys h
  induction xs with
  | nil => simp
  | cons c t ih =>
    have hc : p c = true := h c (by simp)
    simp only [List.cons_append, List.dropWhile_cons, hc, if_pos]
    rw [ih fun d hd => h d (by simp [hd])]

theorem takeWhile_not_head {p : Char → Bool} :
    ∀ (ys : List Char), (∀ c, ys.head? = some c → p c = false) →
      List.takeWhile p ys = [] := by
  intro ys h
  cases ys with
  | nil => simp
  | cons c t => simp [List.takeWhile_cons, h c rfl]

theorem hexVal_hexChar {d : Nat} (h : d < 16) : hexVal (hexChar d) = some d := by
  interval_cases d <;> decide

theorem hexQuad_hex4 {m : Nat} (h : m < 65536) :
    hexQuad (hexChar (m / 4096 % 16)) (hexChar (m / 256 % 16))
      (hexChar (m / 16 % 16)) (hexChar (m % 16)) = some m := by
  rw [hexQuad, hexVal_hexChar (Nat.mod_lt _ (by omega)),
    hexVal_hexChar (Nat.mod_lt _ (by omega)), hexVal_hexChar (Nat.mod_lt _ (by omega)),
    hexVal_hexChar (Nat.mod_lt _ (by omega))]
  exact congrArg some (by omega)

theorem parseStrBody_esc (c : Char) (f : Nat) (tail : List Char) :
    parseStrBody (f + 1) (escapeChar c ++ tail) =
      (parseStrBody f tail).map fun p => (c :: p.1, p.2) := by
  by_cases h1 : c = '"'
  · subst h1
    simp [escapeChar, parseStrBody, parseEsc]
  by_cases h2 : c = '\\'
  · subst h2
    simp [escapeChar, parseStrBody, parseEsc]
  by_cases h3 : c = '\n'
  · subst h3
    simp [escapeChar, parseStrBody, parseEsc]
  by_cases h4 : c = '\r'
  · subst h4
    simp [escapeChar, parseStrBody, parseEsc]
  by_cases h5 : c = '\t'
  · subst h5
    simp [escapeChar, parseStrBody, parseEsc]
  by_cases h6 : c.toNat = 8
  · have hc : Char.ofNat 8 = c := by rw [← h6, Char.ofNat_toNat]
    rw [escapeChar, if_neg h1, if_neg h2, if_neg h3, if_neg h4, if_neg h5, if_pos h6]
    simp [parseStrBody, parseEsc]
    rw [hc]
  by_cases h7 : c.toNat = 12
  · have hc : Char.ofNat 12 = c := by rw [← h7, Char.ofNat_toNat]
    rw [escapeChar, if_neg h1, if_neg h2, if_neg h3, if_neg h4, if_neg h5, if_neg h6,
      if_pos h7]
    simp [parseStrBody, parseEsc]
    rw [hc]
  by_cases h8 : 32 ≤ c.toNat ∧ c.toNat < 127
  · rw [escapeChar, if_neg h1, if_neg h2, if_neg h3, if_neg h4, if_neg h5, if_neg h6,
      if_neg h7, if_pos h8]
    rw [List.cons_append, List.nil_append, parseStrBody, if_neg h1, if_neg h2,
      if_neg (by omega : ¬ c.toNat < 32)]
  by_cases h9 : c.toNat < 65536
  · have hval := Char.toNat_valid c
    rw [escapeChar, if_neg h1, if_neg h2, if_neg h3, if_neg h4, if_neg h5, if_neg h6,
      if_neg h7, if_neg h8, if_pos h9]
    simp only [hex4, List.cons_append, List.nil_append]
    rw [parseStrBody, if_neg (by decide : ¬ ('\\' : Char) = '"'), if_pos rfl]
    rw [parseEsc, if_pos rfl]
    rw [hexQuad_hex4 h9, Option.some_bind]
    rw [if_neg (by omega : ¬ (55296 ≤ c.toNat ∧ c.toNat ≤ 56319)),
      if_neg (by omega : ¬ (56320 ≤ c.toNat ∧ c.toNat ≤ 57343)), Char.ofNat_toNat]
  · have hval := Char.toNat_valid c
    have hhi : (55296 + (c.toNat - 65536) / 1024) < 65536 := by omega
    have hlo : (56320 + (c.toNat - 65536) % 1024) < 65536 := by
      have := Nat.mod_lt (c.toNat - 65536) (show 0 < 1024 by omega)
      omega
    rw [escapeChar, if_neg h1, if_neg h2, if_neg h3, if_neg h4, if_neg h5, if_neg h6,
      if_neg h7, if_neg h8, if_neg h9]
    simp only [hex4, List.cons_append, List.nil_append, List.append_assoc]
    rw [parseStrBody, if_neg (by decide : ¬ ('\\' : Char) = '"'), if_pos rfl]
    rw [parseEsc, if_pos rfl]
    rw [hexQuad_hex4 hhi, Option.some_bind]
    rw [if_pos (by omega : 55296 ≤ 55296 + (c.toNat - 65536) / 1024 ∧
      55296 + (c.toNat - 65536) / 1024 ≤ 56319)]
    rw [parseLowSurrogate]
    rw [if_pos (by exact ⟨rfl, rfl⟩ : ('\\' : Char) = '\\' ∧ ('u' : Char) = 'u')]
    rw [hexQuad_hex4 hlo, Option.some_bind]
    rw [if_pos (by
      have := Nat.mod_lt (c.toNat - 65536) (show 0 < 1024 by omega)
      omega : 56320 ≤ 56320 + (c.toNat - 65536) % 1024 ∧
        56320 + (c.toNat - 65536) % 1024 ≤ 57343)]
    have harg : 65536 + 1024 * (55296 + (c.toNat - 65536) / 1024 - 55296) +
        (56320 + (c.toNat - 65536) % 1024 - 56320) = c.toNat := by omega
    rw [harg, Char.ofNat_toNat]

theorem escapeChar_ne_nil (c : Char) : escapeChar c ≠ [] := by
  rw [escapeChar]
  split_ifs <;> simp [hex4]

theorem length_le_escList : ∀ s : List Char, s.length ≤ (escList s).length
  | [] => Nat.le_refl _
  | c :: cs => by
    have h1 : 1 ≤ (escapeChar c).length := by
      have := escapeChar_ne_nil c
      cases h : escapeChar c with
      | nil => exact absurd h this
      | cons a t => simp
    have := length_le_escList cs
    simp only [escList, List.length_append, List.length_cons]
    omega

theorem parseStrBody_escList : ∀ (s : List Char) (f : Nat), s.length < f → ∀ tail,
    parseStrBody f (escList s ++ ('"' :: tail)) = some (s, tail) := by
  intro s
  induction s with
  | nil =>
    intro f hf tail
    cases f with
    | zero => omega
    | succ f => simp [escList, parseStrBody]
  | cons c cs ih =>
    intro f hf tail
    cases f with
    | zero => omega
    | succ f =>
      rw [escList, List.append_assoc, parseStrBody_esc,
        ih f (by simpa using Nat.lt_of_succ_lt_succ hf) tail]
      rfl

theorem expectChars_prefix : ∀ (pre rest : List Char),
    expectChars pre (pre ++ rest) = some rest
  | [], rest => rfl
  | e :: es, rest => by
    simp only [List.cons_append, expectChars, if_pos rfl]
    exact expectChars_prefix es rest

theorem skipWs_cons_not {c : Char} (h : isWs c = false) (r : List Char) :
    skipWs (c :: r) = c :: r := by
  simp [skipWs, List.dropWhile_cons, h]

theorem skipWs_cons_ws {c : Char} (h : isWs c = true) (r : List Char) :
    skipWs (c :: r) = skipWs r := by
  simp [skipWs, List.dropWhile_cons, h]

theorem parseVal_ws (f : Nat) (r : List Char) :
    parseVal f (' ' :: r) = parseVal f r := by
  cases f with
  | zero => rfl
  | succ f => rw [parseVal, parseVal, skipWs_cons_ws (by decide)]

theorem parseListElems_ws (f : Nat) (r : List Char) :
    parseListElems f (' ' :: r) = parseListElems f r := by
  cases f with
  | zero => rfl
  | succ f => rw [parseListElems, parseListElems, parseVal_ws]

theorem parseDictEntries_ws (f : Nat) (r : List Char) :
    parseDictEntries f (' ' :: r) = parseDictEntries f r := by
  cases f with
  | zero => rfl
  | succ f => rw [parseDictEntries, parseDictEntries, skipWs_cons_ws (by decide)]

theorem isDigit_ne {c d : Char} (h : c.isDigit = true) (hd : d.isDigit = false) :
    c ≠ d := by
  intro he
  rw [he, hd] at h
  exact Bool.false_ne_true h

theorem isDigit_facts {c : Char} (h : c.isDigit = true) :
    isWs c = false ∧ c ≠ ']' ∧ c ≠ rcurl ∧ c ≠ 'n' ∧ c ≠ 't' ∧ c ≠ 'f' ∧
      c ≠ '"' ∧ c ≠ '[' ∧ c ≠ lcurl ∧ c ≠ '-' := by
  have w1 : c ≠ ' ' := isDigit_ne h (by decide)
  have w2 : c ≠ '\t' := isDigit_ne h (by decide)
  have w3 : c ≠ '\n' := isDigit_ne h (by decide)
  have w4 : c ≠ '\x0d' := isDigit_ne h (by decide)
  refine ⟨by simp [isWs, w1, w2, w3, w4], isDigit_ne h (by decide), isDigit_ne h (by decide),
    isDigit_ne h (by decide), isDigit_ne h (by decide), isDigit_ne h (by decide),
    isDigit_ne h (by decide), isDigit_ne h (by decide), isDigit_ne h (by decide),
    isDigit_ne h (by decide)⟩

theorem dumpV_head (v : PyVal) : ∃ c cs, dumpV v = c :: cs ∧ isWs c = false ∧
    c ≠ ']' ∧ c ≠ rcurl := by
  cases v with
  | none => exact ⟨'n', _, rfl, by decide⟩
  | bool b => cases b with
    | true => exact ⟨'t', _, rfl, by decide⟩
    | false => exact ⟨'f', _, rfl, by decide⟩
  | int n =>
    rw [dumpV, intChars]
    by_cases hn : n < 0
    · rw [if_pos hn]
      exact ⟨'-', _, rfl, by decide⟩
    · rw [if_neg hn]
      cases hh : natChars n.toNat with
      | nil => exact absurd hh (natChars_ne_nil _)
      | cons c cs =>
        have hd : c.isDigit = true :=
          natChars_all_digits n.toNat c (by rw [hh]; exact List.mem_cons_self _ _)
        obtain ⟨f1, f2, f3, _⟩ := isDigit_facts hd
        exact ⟨c, cs, rfl, f1, f2, f3⟩
  | str s => exact ⟨'"', _, rfl, by decide⟩
  | pylist l => exact ⟨'[', _, rfl, by decide⟩
  | dict d =>
    refine ⟨lcurl, _, rfl, by decide⟩

theorem parseDigits_natChars (m : Nat) (rest : List Char) (h : DelimOk rest) :
    parseDigits (natChars m ++ rest) = some (m, rest) := by
  have hall := natChars_all_digits m
  have hhead : ∀ c, rest.head? = some c → c.isDigit = false := by
    intro c hc
    cases rest with
    | nil => simp at hc
    | cons d r =>
      simp at hc
      subst hc
      exact h
  rw [parseDigits]
  simp only [takeWhile_append_all _ _ hall, takeWhile_not_head _ hhead,
    dropWhile_append_all _ _ hall, List.append_nil]
  have hne := natChars_ne_nil m
  rw [if_neg (by simpa [List.isEmpty_iff] using hne)]
  rw [natFromDigits_natChars]
  have : List.dropWhile Char.isDigit rest = rest := by
    cases rest with
    | nil => rfl
    | cons d r =>
      have h2 : d.isDigit = false := h
      simp [List.dropWhile_cons, h2]
  rw [this]

theorem sizeV_pos : ∀ v : PyVal, 1 ≤ sizeV v
  | .none => Nat.le_refl _
  | .bool _ => Nat.le_refl _
  | .int _ => Nat.le_refl _
  | .str _ => Nat.le_refl _
  | .pylist l => by simp [sizeV]
  | .dict d => by simp [sizeV]

theorem dumpV_length_pos (v : PyVal) : 1 ≤ (dumpV v).length := by
  obtain ⟨c, cs, h, _⟩ := dumpV_head v
  simp [h]

theorem dumpLSep_length_pos (l : PyList) : 1 ≤ (dumpLSep l).length := by
  cases l <;> simp [dumpLSep]

theorem dumpDSep_length_pos (d : PyDict) : 1 ≤ (dumpDSep d).length := by
  cases d <;> simp [dumpDSep]

mutual
theorem sizeV_le_lenV : (v : PyVal) → sizeV v ≤ (dumpV v).length
  | .none => by simp [sizeV, dumpV]
  | .bool b => by cases b <;> simp [sizeV, dumpV]
  | .int n => by simpa [sizeV] using dumpV_length_pos (.int n)
  | .str s => by simp [sizeV, dumpV]
  | .pylist l => by
    have h := sizeL_le_lenL l
    simp only [sizeV, dumpV, List.length_cons]
    omega
  | .dict d => by
    have h := sizeD_le_lenD d
    simp only [sizeV, dumpV, List.length_cons]
    omega

theorem sizeL_le_lenL : (l : PyList) → sizeL l ≤ (dumpLBody l).length
  | .nil => by simp [sizeL, dumpLBody]
  | .cons h t => by
    have hv := sizeV_le_lenV h
    have hvp := dumpV_length_pos h
    have ht := sizeL_le_lenSep t
    have hsp := dumpLSep_length_pos t
    have hm : max (sizeV h) (sizeL t) ≤ (dumpV h).length + (dumpLSep t).length :=
      Nat.max_le.mpr ⟨by omega, by omega⟩
    rw [sizeL, dumpLBody]
    simp only [List.length_append]
    omega

theorem sizeL_le_lenSep : (l : PyList) → sizeL l ≤ (dumpLSep l).length
  | .nil => by simp [sizeL, dumpLSep]
  | .cons h t => by
    have hv := sizeV_le_lenV h
    have hvp := dumpV_length_pos h
    have ht := sizeL_le_lenSep t
    have hm : max (sizeV h) (sizeL t) ≤ (dumpV h).length + (dumpLSep t).length :=
      Nat.max_le.mpr ⟨by omega, by omega⟩
    rw [sizeL, dumpLSep]
    simp only [List.length_append, List.length_cons]
    omega

theorem sizeD_le_lenD : (d : PyDict) → sizeD d ≤ (dumpDBody d).length
  | .nil => by simp [sizeD, dumpDBody]
  | .cons k v t => by
    have hv := sizeV_le_lenV v
    have hvp := dumpV_length_pos v
    have ht := sizeD_le_lenSepD t
    have hm : max (sizeV v) (sizeD t) ≤
        (dumpV v).length + 3 + (dumpDSep t).length :=
      Nat.max_le.mpr ⟨by omega, by omega⟩
    rw [sizeD, dumpDBody]
    simp only [List.length_append, List.length_cons]
    omega

theorem sizeD_le_lenSepD : (d : PyDict) → sizeD d ≤ (dumpDSep d).length
  | .nil => by simp [sizeD, dumpDSep]
  | .cons k v t => by
    have hv := sizeV_le_lenV v
    have hvp := dumpV_length_pos v
    have ht := sizeD_le_lenSepD t
    have hm : max (sizeV v) (sizeD t) ≤
        (dumpV v).length + 3 + (dumpDSep t).length :=
      Nat.max_le.mpr ⟨by omega, by omega⟩
    rw [sizeD, dumpDSep]
    simp only [List.length_append, List.length_cons]
    omega
end

theorem delimOk_nil : DelimOk [] := trivial

theorem delimOk_cons {c : Char} {r : List Char} (h : c.isDigit = false) :
    DelimOk (c :: r) := h

theorem parseVal_dump_succ (f : Nat)
    (ihL : ∀ (h : PyVal) (t : PyList) (rest : List Char), sizeL (.cons h t) ≤ f →
      parseListElems f (dumpLBody (.cons h t) ++ rest) = some (.cons h t, rest))
    (ihD : ∀ (k : String) (v : PyVal) (t : PyDict) (rest : List Char),
      sizeD (.cons k v t) ≤ f →
      parseDictEntries f (dumpDBody (.cons k v t) ++ rest) = some (.cons k v t, rest)) :
    ∀ (v : PyVal) (rest : List Char), sizeV v ≤ f + 1 → DelimOk rest →
      parseVal (f + 1) (dumpV v ++ rest) = some (v, rest) := by
  intro v rest hf hd
  cases v with
  | none =>
    rw [show dumpV .none ++ rest = 'n' :: (['u', 'l', 'l'] ++ rest) from rfl]
    rw [parseVal, skipWs_cons_not (by decide)]
    dsimp only
    rw [if_pos rfl, expectChars_prefix]
    rfl
  | bool b =>
    cases b with
    | true =>
      rw [show dumpV (.bool true) ++ rest = 't' :: (['r', 'u', 'e'] ++ rest) from rfl]
      rw [parseVal, skipWs_cons_not (by decide)]
      dsimp only
      rw [if_neg (by decide), if_pos rfl, expectChars_prefix]
      rfl
    | false =>
      rw [show dumpV (.bool false) ++ rest = 'f' :: (['a', 'l', 's', 'e'] ++ rest) from rfl]
      rw [parseVal, skipWs_cons_not (by decide)]
      dsimp only
      rw [if_neg (by decide), if_neg (by decide), if_pos rfl, expectChars_prefix]
      rfl
  | int n =>
    rw [show dumpV (.int n) = intChars n from rfl, intChars]
    by_cases hn : n < 0
    · rw [if_pos hn, List.cons_append]
      rw [parseVal, skipWs_cons_not (by decide)]
      dsimp only
      rw [if_neg (by decide), if_neg (by decide), if_neg (by decide), if_neg (by decide),
        if_neg (by decide), if_neg (by decide), if_pos rfl]
      rw [parseDigits_natChars _ _ hd]
      have he : -((n.natAbs : Int)) = n := by omega
      show some (PyVal.int (-(n.natAbs : Int)), rest) = some (PyVal.int n, rest)
      rw [he]
    · rw [if_neg hn]
      cases hh : natChars n.toNat with
      | nil => exact absurd hh (natChars_ne_nil _)
      | cons c cs =>
        have hdg : c.isDigit = true :=
          natChars_all_digits _ c (by rw [hh]; exact List.mem_cons_self _ _)
        obtain ⟨w1, _, _, w4, w5, w6, w7, w8, w9, w10⟩ := isDigit_facts hdg
        rw [List.cons_append]
        rw [parseVal, skipWs_cons_not w1]
        dsimp only
        rw [if_neg w4, if_neg w5, if_neg w6, if_neg w7, if_neg w8, if_neg w9, if_neg w10,
          if_pos hdg]
        rw [show c :: (cs ++ rest) = (c :: cs) ++ rest from rfl, ← hh,
          parseDigits_natChars _ _ hd]
        have he : ((n.toNat : Int)) = n := Int.toNat_of_nonneg (by omega)
        show some (PyVal.int ((n.toNat : Int)), rest) = some (PyVal.int n, rest)
        rw [he]
  | str s =>
    rw [show dumpV (.str s) ++ rest = '"' :: (escList s.data ++ ('"' :: rest)) by
      simp [dumpV]]
    rw [parseVal, skipWs_cons_not (by decide)]
    dsimp only
    rw [if_neg (by decide), if_neg (by decide), if_neg (by decide), if_pos rfl]
    rw [parseStrBody_escList s.data _ (by
      have := length_le_escList s.data
      simp only [List.length_append, List.length_cons]
      omega) rest]
    rfl
  | pylist l =>
    cases l with
    | nil =>
      rw [show dumpV (.pylist .nil) ++ rest = '[' :: (']' :: rest) from rfl]
      rw [parseVal, skipWs_cons_not (by decide)]
      dsimp only
      rw [if_neg (by decide), if_neg (by decide), if_neg (by decide), if_neg (by decide),
        if_pos rfl]
      rw [skipWs_cons_not (by decide)]
      dsimp only
      rw [if_pos rfl]
    | cons h t =>
      obtain ⟨c, cs, hcs, w1, w2, _⟩ := dumpV_head h
      have hbody : dumpLBody (.cons h t) ++ rest =
          c :: (cs ++ (dumpLSep t ++ rest)) := by
        rw [dumpLBody, hcs]
        simp [List.append_assoc]
      rw [show dumpV (.pylist (.cons h t)) ++ rest =
        '[' :: (dumpLBody (.cons h t) ++ rest) by simp [dumpV]]
      rw [parseVal, skipWs_cons_not (by decide)]
      dsimp only
      rw [if_neg (by decide), if_neg (by decide), if_neg (by decide), if_neg (by decide),
        if_pos rfl]
      rw [hbody, skipWs_cons_not w1]
      dsimp only
      rw [if_neg w2, ← hbody]
      rw [ihL h t rest (by
        have : sizeV (.pylist (.cons h t)) = 1 + sizeL (.cons h t) := rfl
        omega)]
      rfl
  | dict d =>
    cases d with
    | nil =>
      rw [show dumpV (.dict .nil) ++ rest = lcurl :: (rcurl :: rest) from rfl]
      rw [parseVal, skipWs_cons_not (by decide)]
      dsimp only
      rw [if_neg (by decide), if_neg (by decide), if_neg (by decide), if_neg (by decide),
        if_neg (by decide), if_pos rfl]
      rw [skipWs_cons_not (by decide)]
      dsimp only
      rw [if_pos rfl]
    | cons k v t =>
      have htl : dumpDBody (.cons k v t) ++ rest = '"' ::
          (escList k.data ++ ('"' :: (':' :: ' ' :: (dumpV v ++ (dumpDSep t ++ rest))))) := by
        rw [dumpDBody]
        simp [List.append_assoc]
      rw [show dumpV (.dict (.cons k v t)) ++ rest =
        lcurl :: (dumpDBody (.cons k v t) ++ rest) by simp [dumpV]]
      rw [parseVal, skipWs_cons_not (by decide)]
      dsimp only
      rw [if_neg (by decide), if_neg (by decide), if_neg (by decide), if_neg (by decide),
        if_neg (by decide), if_pos rfl]
      rw [htl, skipWs_cons_not (by decide)]
      dsimp only
      rw [if_neg (by decide), ← htl]
      rw [ihD k v t rest (by
        have : sizeV (.dict (.cons k v t)) = 1 + sizeD (.cons k v t) := rfl
        omega)]
      rfl

theorem parseListElems_dump_succ (f : Nat)
    (ihV : ∀ (v : PyVal) (rest : List Char), sizeV v ≤ f → DelimOk rest →
      parseVal f (dumpV v ++ rest) = some (v, rest))
    (ihL : ∀ (h : PyVal) (t : PyList) (rest : List Char), sizeL (.cons h t) ≤ f →
      parseListElems f (dumpLBody (.cons h t) ++ rest) = some (.cons h t, rest)) :
    ∀ (h : PyVal) (t : PyList) (rest : List Char), sizeL (.cons h t) ≤ f + 1 →
      parseListElems (f + 1) (dumpLBody (.cons h t) ++ rest) = some (.cons h t, rest) := by
  intro h t rest hf
  have hsh : sizeV h ≤ f := by
    have h1 := Nat.le_max_left (sizeV h) (sizeL t)
    rw [sizeL] at hf
    omega
  rw [dumpLBody, List.append_assoc, parseListElems]
  cases t with
  | nil =>
    rw [show dumpLSep PyList.nil ++ rest = ']' :: rest from rfl]
    rw [ihV h (']' :: rest) hsh (delimOk_cons (by decide))]
    dsimp only [Option.bind]
    rw [skipWs_cons_not (by decide)]
    dsimp only
    rw [if_neg (by decide), if_pos rfl]
  | cons h2 t2 =>
    rw [show dumpLSep (PyList.cons h2 t2) ++ rest =
        ',' :: (' ' :: (dumpV h2 ++ dumpLSep t2 ++ rest)) by
      rw [dumpLSep]
      simp [List.append_assoc]]
    rw [ihV h _ hsh (delimOk_cons (by decide))]
    dsimp only [Option.bind]
    rw [skipWs_cons_not (by decide)]
    dsimp only
    rw [if_pos rfl, parseListElems_ws]
    have hb : dumpV h2 ++ dumpLSep t2 ++ rest = dumpLBody (.cons h2 t2) ++ rest := by
      rw [dumpLBody]
    rw [hb, ihL h2 t2 rest (by
      have h2m := Nat.le_max_right (sizeV h) (sizeL (.cons h2 t2))
      rw [sizeL] at hf
      omega)]
    rfl

theorem parseDictEntries_dump_succ (f : Nat)
    (ihV : ∀ (v : PyVal) (rest : List Char), sizeV v ≤ f → DelimOk rest →
      parseVal f (dumpV v ++ rest) = some (v, rest))
    (ihD : ∀ (k : String) (v : PyVal) (t : PyDict) (rest : List Char),
      sizeD (.cons k v t) ≤ f →
      parseDictEntries f (dumpDBody (.cons k v t) ++ rest) = some (.cons k v t, rest)) :
    ∀ (k : String) (v : PyVal) (t : PyDict) (rest : List Char), sizeD (.cons k v t) ≤ f + 1 →
      parseDictEntries (f + 1) (dumpDBody (.cons k v t) ++ rest) = some (.cons k v t, rest) := by
  intro k v t rest hf
  have hsv : sizeV v ≤ f := by
    have h1 := Nat.le_max_left (sizeV v) (sizeD t)
    rw [sizeD] at hf
    omega
  have hkey : dumpDBody (.cons k v t) ++ rest = '"' ::
      (escList k.data ++ ('"' :: (':' :: (' ' :: (dumpV v ++ (dumpDSep t ++ rest)))))) := by
    rw [dumpDBody]
    simp [List.append_assoc]
  rw [hkey, parseDictEntries, skipWs_cons_not (by decide)]
  dsimp only
  rw [if_pos rfl]
  rw [parseStrBody_escList k.data _ (by
    have := length_le_escList k.data
    simp only [List.length_append, List.length_cons]
    omega) _]
  dsimp only [Option.bind]
  rw [skipWs_cons_not (by decide)]
  dsimp only
  rw [if_pos rfl]
  rw [parseVal_ws]
  have hdel : DelimOk (dumpDSep t ++ rest) := by
    cases t with
    | nil => exact delimOk_cons (by decide)
    | cons k2 v2 t2 => exact delimOk_cons (by decide)
  rw [ihV v _ hsv hdel]
  dsimp only [Option.bind]
  cases t with
  | nil =>
    rw [show dumpDSep PyDict.nil ++ rest = rcurl :: rest from rfl]
    rw [skipWs_cons_not (by decide)]
    dsimp only
    rw [if_neg (by decide), if_pos rfl]
  | cons k2 v2 t2 =>
    rw [show dumpDSep (PyDict.cons k2 v2 t2) ++ rest =
        ',' :: (' ' :: (('"' :: (escList k2.data ++ ('"' :: ':' :: ' ' :: dumpV v2)) ++
          dumpDSep t2) ++ rest)) by
      rw [dumpDSep]
      simp [List.append_assoc]]
    rw [skipWs_cons_not (by decide)]
    dsimp only
    rw [if_pos rfl, parseDictEntries_ws]
    have hb : ('"' :: (escList k2.data ++ ('"' :: ':' :: ' ' :: dumpV v2)) ++ dumpDSep t2) ++
        rest = dumpDBody (.cons k2 v2 t2) ++ rest := by
      rw [dumpDBody]
    rw [hb, ihD k2 v2 t2 rest (by
      have h2m := Nat.le_max_right (sizeV v) (sizeD (.cons k2 v2 t2))
      rw [sizeD] at hf
      omega)]
    rfl

theorem parse_dump_all : ∀ f : Nat,
    (∀ (v : PyVal) (rest : List Char), sizeV v ≤ f → DelimOk rest →
      parseVal f (dumpV v ++ rest) = some (v, rest)) ∧
    (∀ (h : PyVal) (t : PyList) (rest : List Char), sizeL (.cons h t) ≤ f →
      parseListElems f (dumpLBody (.cons h t) ++ rest) = some (.cons h t, rest)) ∧
    (∀ (k : String) (v : PyVal) (t : PyDict) (rest : List Char), sizeD (.cons k v t) ≤ f →
      parseDictEntries f (dumpDBody (.cons k v t) ++ rest) = some (.cons k v t, rest)) := by
  intro f
  induction f with
  | zero =>
    refine ⟨fun v rest hv _ => absurd hv (by have := sizeV_pos v; omega),
      fun h t rest hl => absurd hl (by rw [sizeL]; omega),
      fun k v t rest hd => absurd hd (by rw [sizeD]; omega)⟩
  | succ f ih =>
    exact ⟨parseVal_dump_succ f ih.2.1 ih.2.2,
      parseListElems_dump_succ f ih.1 ih.2.1,
      parseDictEntries_dump_succ f ih.1 ih.2.2⟩

/-- `json.loads` is a left inverse of `json.dumps`: the serialized text of any
property value parses back to exactly that value. -/
theorem json_loads_dumps (v : PyVal) : json_loads (json_dumps v) = some v := by
  have hA := (parse_dump_all ((dumpV v).length + 1)).1
  have hsize : sizeV v ≤ (dumpV v).length + 1 := by
    have h1 := sizeV_le_lenV v
    omega
  have hres := hA v [] hsize delimOk_nil
  rw [List.append_nil] at hres
  rw [json_loads, show (json_dumps v).data = dumpV v from rfl, hres]
  rfl

theorem pyItem_error {d : PyDict} {k : String} {e : PyErr}
    (h : pyItem d k = Except.error e) : e = PyErr.keyError k := by
  rw [pyItem] at h
  cases hg : d.get? k with
  | none => rw [hg] at h; exact (Except.error.inj h).symm
  | some v => rw [hg] at h; exact absurd h (by simp)

theorem asStr_error {v : PyVal} {e : PyErr} (h : asStr v = Except.error e) :
    ∃ msg, e = PyErr.typeError msg := by
  cases v <;> simp [asStr] at h <;> exact ⟨_, h.symm⟩

theorem fifo_noop (m : PyDict) :
    (if (pygetD m "FifoQueue" (.bool false)).truthy then
      m.set "FifoQueue" (pygetD m "FifoQueue" (.bool false)) else m) = m := by
  cases hg : m.get? "FifoQueue" with
  | none => simp [pygetD, hg, PyVal.truthy]
  | some v =>
    by_cases ht : v.truthy
    · simp [pygetD, hg, ht, PyDict.set_self m "FifoQueue" v hg]
    · simp [pygetD, hg, ht]

theorem pyget_eq_of_get? {props : PyDict} {k : String} {v : PyVal}
    (h : props.get? k = some v) : pyget props k = v := by
  simp [pyget, pygetD, h]

/-- C1: for an update request with a previous state, the code's
`should_replace` is true exactly when the desired queue name (defaulting to
the previous one when omitted) differs from the previous queue name, or the
desired fifo flag (defaulting to the previous value when omitted) differs
from the previous fifo value. -/
theorem sqs_update_should_replace_iff (desired prev : PyDict) (prevName : PyVal)
    (_h : prev.get? "QueueName" = some prevName) :
    SQSQueueProvider.update_should_replace desired prev prevName = true ↔
      spec_should_replace desired prev prevName := by
  cases hq : desired.get? "QueueName" <;> cases hf : desired.get? "FifoQueue" <;>
    simp [SQSQueueProvider.update_should_replace, spec_should_replace, pygetD, hq, hf,
      pyEq_refl, Bool.or_eq_true, Bool.not_eq_true']

theorem sqs_update_should_replace_iff_witness :
    (SQSQueueProvider.update_should_replace
        (PyDict.cons "QueueName" (.str "beta") .nil)
        (PyDict.cons "QueueName" (.str "alpha") .nil) (.str "alpha") = true ↔
      spec_should_replace (PyDict.cons "QueueName" (.str "beta") .nil)
        (PyDict.cons "QueueName" (.str "alpha") .nil) (.str "alpha")) :=
  sqs_update_should_replace_iff _ _ _ (by simp [PyDict.get?])

/-- C2: when no replacement is needed — the desired queue name (with the
previous name as default) and the desired fifo flag (with the previous value
as default) both equal the previous ones — `update` returns SUCCESS with the
previous state as its resource model, unchanged, leaves the service state
untouched and performs no service call at all. -/
theorem sqs_update_no_replace_frame {σ : Type} (client : SqsClient σ) (s : σ)
    (request : ResourceRequest) (prev : PyDict) (prevName : PyVal)
    (hprev : request.previous_state = some prev)
    (hname : prev.get? "QueueName" = some prevName)
    (hsame_name : pyEq (pygetD request.desired_state "QueueName" prevName) prevName = true)
    (hsame_fifo : pyEq (pygetD request.desired_state "FifoQueue" (pyget prev "FifoQueue"))
      (pyget prev "FifoQueue") = true) :
    SQSQueueProvider.update client request s =
      (Except.ok ⟨OperationStatus.SUCCESS, prev, .none⟩, s, []) := by
  have hsr : SQSQueueProvider.update_should_replace request.desired_state prev prevName
      = false := by
    rw [SQSQueueProvider.update_should_replace, hsame_name, hsame_fifo]
    rfl
  rw [SQSQueueProvider.update, hprev]
  dsimp only
  rw [pyItem, hname]
  dsimp only
  simp [hsr]

theorem sqs_update_no_replace_frame_witness :
    SQSQueueProvider.update localSqs requestC2 ([] : List QueueRec) =
      (Except.ok ⟨OperationStatus.SUCCESS, prevC2, .none⟩, [], []) :=
  sqs_update_no_replace_frame localSqs [] requestC2 prevC2 (.str "alpha") rfl
    (by simp [prevC2, PyDict.get?]) (by rfl) (by rfl)

theorem str_data_append (a b : String) : (a ++ b).data = a.data ++ b.data := rfl

theorem deriveDefaultQueueName_data (stack lrid : String) :
    (deriveDefaultQueueName stack lrid true).data =
      (stack.data ++ '-' :: lrid.data ++ ['-', '0', '0', '0']) ++ ['.', 'f', 'i', 'f', 'o'] := by
  have hg : (generate_default_name stack lrid).data =
      (stack.data ++ '-' :: lrid.data) ++ ['-', '0', '0', '0', '0', '0', '0', '0', '0'] := by
    rw [generate_default_name, str_data_append, str_data_append, str_data_append]
    rw [show ("-" : String).data = ['-'] from rfl,
      show ("-00000000" : String).data = ['-', '0', '0', '0', '0', '0', '0', '0', '0'] from rfl]
    simp [List.append_assoc]
  rw [deriveDefaultQueueName, if_pos rfl, str_data_append, pySliceDropLast5, hg]
  have hlen : ((stack.data ++ '-' :: lrid.data) ++
      ['-', '0', '0', '0', '0', '0', '0', '0', '0']).length - 5 =
      (stack.data ++ '-' :: lrid.data).length + 4 := by
    simp only [List.length_append, List.length_cons, List.length_nil]
    omega
  dsimp only
  rw [hlen, List.take_append]
  simp

theorem derive_fifo_suffix (stack lrid : String) :
    (".fifo".data <:+ (deriveDefaultQueueName stack lrid true).data) ∧
    ¬ (".fifo.fifo".data <:+ (deriveDefaultQueueName stack lrid true).data) := by
  rw [deriveDefaultQueueName_data]
  constructor
  · exact ⟨stack.data ++ '-' :: lrid.data ++ ['-', '0', '0', '0'],
      by rw [show (".fifo" : String).data = ['.', 'f', 'i', 'f', 'o'] from rfl]⟩
  · rintro ⟨t, ht⟩
    rw [show (".fifo.fifo" : String).data =
      ['.', 'f', 'i', 'f', 'o'] ++ ['.', 'f', 'i', 'f', 'o'] from rfl] at ht
    rw [← List.append_assoc] at ht
    have hc := List.append_cancel_right ht
    have h1 : ((t ++ ['.', 'f', 'i', 'f', 'o']) : List Char).getLast? = some 'o' := by
      rw [show (['.', 'f', 'i', 'f', 'o'] : List Char) = ['.', 'f', 'i', 'f'] ++ ['o'] from rfl,
        ← List.append_assoc]
      exact List.getLast?_concat _
    have h2 : ((stack.data ++ '-' :: lrid.data ++ ['-', '0', '0', '0']) : List Char).getLast?
        = some '0' := by
      rw [show (['-', '0', '0', '0'] : List Char) = ['-', '0', '0'] ++ ['0'] from rfl]
      rw [show stack.data ++ '-' :: lrid.data ++ (['-', '0', '0'] ++ ['0']) =
        (stack.data ++ '-' :: lrid.data ++ ['-', '0', '0']) ++ ['0'] by
          simp [List.append_assoc]]
      exact List.getLast?_concat _
    rw [hc] at h1
    rw [h1] at h2
    exact absurd h2 (by simp)

/-- C3: for a create request whose desired state has no `QueueName`, every
queue-creation call the provider performs uses the name derived
deterministically from the stack name, the logical resource id and the
desired FifoQueue flag; and when that flag is truthy, the derived name ends
in `.fifo` exactly once (it ends in `.fifo` and not in `.fifo.fifo`). -/
theorem sqs_create_generated_name {σ : Type} (client : SqsClient σ) (s : σ)
    (request : ResourceRequest)
    (hq : request.desired_state.get? "QueueName" = Option.none) :
    ∀ (name : String) (attrs tags : Option (List (String × String))),
      SqsCall.createQueue name attrs tags ∈ (SQSQueueProvider.create client request s).2.2 →
      name = deriveDefaultQueueName request.stack_name request.logical_resource_id
          (pyget request.desired_state "FifoQueue").truthy ∧
      ((pyget request.desired_state "FifoQueue").truthy = true →
        (".fifo".data <:+ name.data) ∧ ¬ (".fifo.fifo".data <:+ name.data)) := by
  intro name attrs tags hmem
  have hqn : pyget request.desired_state "QueueName" = PyVal.none := by
    simp [pyget, pygetD, hq]
  simp only [SQSQueueProvider.create, SQSQueueProvider.createModel] at hmem
  rw [fifo_noop] at hmem
  rw [hqn] at hmem
  rw [if_pos (show ¬ (PyVal.none.truthy = true) by decide)] at hmem
  set D := deriveDefaultQueueName request.stack_name request.logical_resource_id
    (pyget request.desired_state "FifoQueue").truthy with hD
  set m2 := request.desired_state.set "QueueName" (.str D) with hm2
  have hgoal : name = D →
      name = D ∧ ((pyget request.desired_state "FifoQueue").truthy = true →
        (".fifo".data <:+ name.data) ∧ ¬ (".fifo.fifo".data <:+ name.data)) := by
    intro he
    refine ⟨he, fun hf => ?_⟩
    rw [he, hD, hf]
    exact derive_fifo_suffix _ _
  rcases hc : _compile_sqs_queue_attributes m2 with e | attrsC
  · rw [hc] at hmem
    simp at hmem
  rw [hc] at hmem
  have hitem : pyItem m2 "QueueName" = Except.ok (.str D) := by
    simp [pyItem, hm2, PyDict.get?_set_self]
  rw [hitem] at hmem
  dsimp only [asStr] at hmem
  rcases ht : tagsToDict (pygetD m2 "Tags" (.pylist .nil)) with e | tagsC
  · rw [ht] at hmem
    simp at hmem
  rw [ht] at hmem
  dsimp only at hmem
  rcases hcr : client.create_queue s D (some attrsC) (some tagsC) with ⟨r1, s1⟩
  rw [hcr] at hmem
  cases r1 with
  | error e =>
    dsimp only at hmem
    simp at hmem
    exact hgoal hmem.1
  | ok url =>
    dsimp only at hmem
    rcases hga : client.get_queue_attributes s1 url ["QueueArn"] with ⟨r2, s2⟩
    rw [hga] at hmem
    cases r2 with
    | error e =>
      dsimp only at hmem
      simp at hmem
      exact hgoal hmem.1
    | ok attrsResp =>
      dsimp only at hmem
      cases hlk : attrsResp.lookup "QueueArn" with
      | none =>
        rw [hlk] at hmem
        dsimp only at hmem
        simp at hmem
        exact hgoal hmem.1
      | some arn =>
        rw [hlk] at hmem
        dsimp only at hmem
        simp at hmem
        exact hgoal hmem.1

theorem sqs_create_generated_name_witness :
    (".fifo".data <:+ (deriveDefaultQueueName "stack" "queue" true).data) ∧
    ¬ (".fifo.fifo".data <:+ (deriveDefaultQueueName "stack" "queue" true).data) := by
  have h := sqs_create_generated_name localSqs ([] : List QueueRec) requestC3 rfl
    (deriveDefaultQueueName "stack" "queue" true)
    (some [("FifoQueue", "true")]) (some [])
    (by
      rw [show (SQSQueueProvider.create localSqs requestC3 ([] : List QueueRec)).2.2 =
        [SqsCall.createQueue (deriveDefaultQueueName "stack" "queue" true)
          (some [("FifoQueue", "true")]) (some []),
         SqsCall.getQueueAttributes (urlOfName (deriveDefaultQueueName "stack" "queue" true))
          ["QueueArn"]] from rfl]
      exact List.mem_cons_self _ _)
  exact h.2 rfl

theorem intToStr_eq_dumps (n : Int) : intToStr n = json_dumps (.int n) := by
  rw [json_dumps, intToStr, show dumpV (.int n) = intChars n from by rw [dumpV]]

theorem json_loads_intToStr (n : Int) : json_loads (intToStr n) = some (.int n) := by
  rw [intToStr_eq_dumps]
  exact json_loads_dumps _

theorem get?_of_pyget {props : PyDict} {k : String} {v : PyVal}
    (h : pyget props k = v) (hne : v ≠ PyVal.none) : props.get? k = some v := by
  cases hg : props.get? k with
  | none =>
    rw [pyget, pygetD, hg] at h
    simp at h
    exact absurd h.symm hne
  | some w =>
    rw [pyget, pygetD, hg] at h
    simp at h
    rw [h]

theorem lookup_eq_none {r : List (String × String)} {k : String}
    (h : ∀ p ∈ r, p.1 ≠ k) : r.lookup k = Option.none := by
  induction r with
  | nil => rfl
  | cons p r ih =>
    obtain ⟨pk, pv⟩ := p
    have hne : pk ≠ k := h (pk, pv) (by simp)
    simp only [List.lookup, show (k == pk) = false from
      beq_eq_false_iff_ne.mpr (fun he => hne he.symm)]
    exact ih (fun q hq => h q (by simp [hq]))

theorem compileAttrs_keys (props : PyDict) :
    ∀ (ks : List String) (r : List (String × String)),
      compileAttrs props ks = Except.ok r → ∀ p ∈ r, p.1 ∈ ks := by
  intro ks
  induction ks with
  | nil =>
    intro r h p hp
    rw [compileAttrs] at h
    simp at h
    subst h
    simp at hp
  | cons k0 ks ih =>
    intro r h p hp
    rw [compileAttrs] at h
    cases hv : pyget props k0 <;> rw [hv] at h
    case none => exact List.mem_cons_of_mem _ (ih r h p hp)
    case pylist l0 => exact absurd h (by simp)
    all_goals {
      rcases hsub : compileAttrs props ks with e | r' <;> rw [hsub] at h
      · exact absurd h (by simp [Except.map])
      · simp [Except.map] at h
        subst h
        rcases List.mem_cons.mp hp with rfl | hp2
        · exact List.mem_cons_self _ _
        · exact List.mem_cons_of_mem _ (ih r' hsub p hp2)
    }

theorem CompiledAttrOk_cons_ne {props : PyDict} {r : List (String × String)}
    {k k0 : String} (hne : k ≠ k0) (x : String) (h : CompiledAttrOk props r k) :
    CompiledAttrOk props ((k0, x) :: r) k := by
  have hlk : ((k0, x) :: r).lookup k = r.lookup k := by
    simp only [List.lookup, show (k == k0) = false from beq_eq_false_iff_ne.mpr hne]
  obtain ⟨h1, h2, h3, h4, h5⟩ := h
  exact ⟨fun hh => by rw [hlk]; exact h1 hh,
    fun s hs => by rw [hlk]; exact h2 s hs,
    fun b hb => by rw [hlk]; exact h3 b hb,
    fun d hd => by rw [hlk]; exact ⟨by rw [(h4 d hd).1], (h4 d hd).2⟩,
    fun n hn => by rw [hlk]; exact ⟨by rw [(h5 n hn).1], (h5 n hn).2⟩⟩

theorem CompiledAttrOk_head {props : PyDict} (r : List (String × String))
    {k0 : String} {v0 : PyVal} (x : String)
    (hg0 : props.get? k0 = some v0)
    (hstr : ∀ s, v0 = .str s → x = s)
    (hbool : ∀ b, v0 = .bool b → x = if b then "true" else "false")
    (hdict : ∀ d, v0 = .dict d → x = json_dumps (.dict d))
    (hint : ∀ n, v0 = .int n → x = intToStr n)
    (hv0 : v0 ≠ PyVal.none) :
    CompiledAttrOk props ((k0, x) :: r) k0 := by
  have hlk : ((k0, x) :: r).lookup k0 = some x := by
    simp [List.lookup]
  refine ⟨?_, ?_, ?_, ?_, ?_⟩
  · rintro (h | h)
    · rw [hg0] at h
      exact absurd h (by simp)
    · rw [hg0] at h
      exact absurd (Option.some.inj h) hv0
  · intro s hs
    rw [hg0] at hs
    rw [hlk, hstr s (Option.some.inj hs)]
  · intro b hb
    rw [hg0] at hb
    rw [hlk, hbool b (Option.some.inj hb)]
  · intro d hd
    rw [hg0] at hd
    exact ⟨by rw [hlk, hdict d (Option.some.inj hd)], json_loads_dumps _⟩
  · intro n hn
    rw [hg0] at hn
    exact ⟨by rw [hlk, hint n (Option.some.inj hn)], json_loads_intToStr n⟩

theorem compileAttrs_spec (props : PyDict) :
    ∀ (ks : List String) (result : List (String × String)), ks.Nodup →
      compileAttrs props ks = Except.ok result →
      ∀ k ∈ ks, CompiledAttrOk props result k := by
  intro ks
  induction ks with
  | nil =>
    intro result _ _ k hk
    exact absurd hk (by simp)
  | cons k0 ks ih =>
    intro result hnd hok k hk
    have hnd0 : k0 ∉ ks := (List.nodup_cons.mp hnd).1
    have hndt : ks.Nodup := (List.nodup_cons.mp hnd).2
    rw [compileAttrs] at hok
    cases hv : pyget props k0 <;> rw [hv] at hok
    case none =>
      rcases List.mem_cons.mp hk with rfl | hk2
      · have hkeys := compileAttrs_keys props ks result hok
        have hlk : result.lookup k = Option.none :=
          lookup_eq_none (fun p hp he => hnd0 (he ▸ hkeys p hp))
        refine ⟨fun _ => hlk, ?_, ?_, ?_, ?_⟩
        · intro s hs
          exact absurd ((pyget_eq_of_get? hs).symm.trans hv) (by simp)
        · intro b hb
          exact absurd ((pyget_eq_of_get? hb).symm.trans hv) (by simp)
        · intro d hd
          exact absurd ((pyget_eq_of_get? hd).symm.trans hv) (by simp)
        · intro n hn
          exact absurd ((pyget_eq_of_get? hn).symm.trans hv) (by simp)
      · exact ih result hndt hok k hk2
    case pylist l0 => exact absurd hok (by simp)
    case str s0 =>
      rcases hsub : compileAttrs props ks with e | r' <;> rw [hsub] at hok
      · exact absurd hok (by simp [Except.map])
      simp only [Except.map, Except.ok.injEq] at hok
      subst hok
      rcases List.mem_cons.mp hk with rfl | hk2
      · exact CompiledAttrOk_head r' s0 (get?_of_pyget hv (by simp))
          (fun s hs => by cases hs; rfl) (fun b hb => by cases hb)
          (fun d hd => by cases hd) (fun n hn => by cases hn) (by simp)
      · exact CompiledAttrOk_cons_ne (fun he => hnd0 (by rw [← he]; exact hk2)) _
          (ih r' hndt hsub k hk2)
    case bool b0 =>
      rcases hsub : compileAttrs props ks with e | r' <;> rw [hsub] at hok
      · exact absurd hok (by simp [Except.map])
      simp only [Except.map, Except.ok.injEq] at hok
      subst hok
      rcases List.mem_cons.mp hk with rfl | hk2
      · exact CompiledAttrOk_head r' _ (get?_of_pyget hv (by simp))
          (fun s hs => by cases hs) (fun b hb => by cases hb; rfl)
          (fun d hd => by cases hd) (fun n hn => by cases hn) (by simp)
      · exact CompiledAttrOk_cons_ne (fun he => hnd0 (by rw [← he]; exact hk2)) _
          (ih r' hndt hsub k hk2)
    case dict d0 =>
      rcases hsub : compileAttrs props ks with e | r' <;> rw [hsub] at hok
      · exact absurd hok (by simp [Except.map])
      simp only [Except.map, Except.ok.injEq] at hok
      subst hok
      rcases List.mem_cons.mp hk with rfl | hk2
      · exact CompiledAttrOk_head r' _ (get?_of_pyget hv (by simp))
          (fun s hs => by cases hs) (fun b hb => by cases hb)
          (fun d hd => by cases hd; rfl) (fun n hn => by cases hn) (by simp)
      · exact CompiledAttrOk_cons_ne (fun he => hnd0 (by rw [← he]; exact hk2)) _
          (ih r' hndt hsub k hk2)
    case int n0 =>
      rcases hsub : compileAttrs props ks with e | r' <;> rw [hsub] at hok
      · exact absurd hok (by simp [Except.map])
      simp only [Except.map, Except.ok.injEq] at hok
      subst hok
      rcases List.mem_cons.mp hk with rfl | hk2
      · exact CompiledAttrOk_head r' _ (get?_of_pyget hv (by simp))
          (fun s hs => by cases hs) (fun b hb => by cases hb)
          (fun d hd => by cases hd) (fun n hn => by cases hn; rfl) (by simp)
      · exact CompiledAttrOk_cons_ne (fun he => hnd0 (by rw [← he]; exact hk2)) _
          (ih r' hndt hsub k hk2)

/-- C4: when attribute compilation succeeds, every declared attribute is
rendered as claim C4 describes — absent and `None` values omitted, strings
unchanged, booleans as lowercase text, dictionaries as JSON text parsing
back to the same structure, integers as decimal text reading back as the
same integer. -/
theorem sqs_compile_attributes_spec (props : PyDict) (result : List (String × String))
    (k : String) (hok : _compile_sqs_queue_attributes props = Except.ok result)
    (hk : k ∈ _queue_attribute_list) : CompiledAttrOk props result k :=
  compileAttrs_spec props _queue_attribute_list result (by decide) hok k hk

theorem sqs_compile_attributes_spec_witness :
    CompiledAttrOk propsC4 resultC4 "RedrivePolicy" :=
  sqs_compile_attributes_spec propsC4 resultC4 "RedrivePolicy" (by rfl) (by decide)

theorem compileAttrs_error_of_pylist (props : PyDict) :
    ∀ (ks : List String) (k : String) (xs : PyList), k ∈ ks →
      props.get? k = some (.pylist xs) →
      ∃ msg, compileAttrs props ks = Except.error (PyErr.typeError msg) := by
  intro ks
  induction ks with
  | nil =>
    intro k xs hk _
    exact absurd hk (by simp)
  | cons k0 ks ih =>
    intro k xs hk hg
    rw [compileAttrs]
    cases hv : pyget props k0
    case pylist l0 => exact ⟨_, rfl⟩
    case none =>
      rcases List.mem_cons.mp hk with rfl | hk2
      · exact absurd (hv.symm.trans (pyget_eq_of_get? hg)) (by simp)
      · exact ih k xs hk2 hg
    all_goals {
      rcases List.mem_cons.mp hk with rfl | hk2
      · exact absurd (hv.symm.trans (pyget_eq_of_get? hg)) (by simp)
      · obtain ⟨msg, hmsg⟩ := ih k xs hk2 hg
        exact ⟨msg, by rw [hmsg]; rfl⟩
    }

/-- C5: a declared attribute holding a list (the only property-bag value
that is neither absent, `None`, a string, a boolean, a dictionary nor an
integer) makes attribute compilation raise a `TypeError`, and `create`
aborts with that fatal error before performing any service call — the
attribute is never silently dropped. -/
theorem sqs_compile_unsupported_type_error (props : PyDict) (k : String) (xs : PyList)
    (hk : k ∈ _queue_attribute_list) (hv : props.get? k = some (.pylist xs)) :
    (∃ msg, _compile_sqs_queue_attributes props = Except.error (PyErr.typeError msg)) ∧
    (∀ {σ : Type} (client : SqsClient σ) (s : σ) (request : ResourceRequest),
      request.desired_state = props →
      ∃ msg, SQSQueueProvider.create client request s =
        (Except.error (PyErr.typeError msg), s, [])) := by
  constructor
  · exact compileAttrs_error_of_pylist props _queue_attribute_list k xs hk hv
  · intro σ client s request hreq
    have hkq : k ≠ "QueueName" := by
      intro he
      rw [he] at hk
      exact absurd hk (by decide)
    simp only [SQSQueueProvider.create, SQSQueueProvider.createModel, hreq]
    rw [fifo_noop]
    by_cases hqn : (pyget props "QueueName").truthy = true
    · rw [if_neg (by simp [hqn])]
      obtain ⟨msg, hmsg⟩ :=
        compileAttrs_error_of_pylist props _queue_attribute_list k xs hk hv
      rw [show _compile_sqs_queue_attributes props =
        Except.error (PyErr.typeError msg) from hmsg]
      exact ⟨msg, rfl⟩
    · rw [if_pos (by simp [hqn])]
      obtain ⟨msg, hmsg⟩ := compileAttrs_error_of_pylist
        (props.set "QueueName" (.str (deriveDefaultQueueName request.stack_name
          request.logical_resource_id (pyget props "FifoQueue").truthy)))
        _queue_attribute_list k xs hk
        (by rw [PyDict.get?_set_ne props "QueueName" k _ (fun he => hkq he.symm)]; exact hv)
      rw [show _compile_sqs_queue_attributes _ = Except.error (PyErr.typeError msg) from hmsg]
      exact ⟨msg, rfl⟩

theorem sqs_compile_unsupported_type_error_witness :
    (∃ msg, _compile_sqs_queue_attributes propsC5 = Except.error (PyErr.typeError msg)) ∧
    (∃ msg, SQSQueueProvider.create localSqs ⟨propsC5, Option.none, "stack", "queue", .none⟩
      ([] : List QueueRec) = (Except.error (PyErr.typeError msg), [], [])) := by
  have h := sqs_compile_unsupported_type_error propsC5 "DelaySeconds"
    (.cons (.int 1) .nil) (by decide) (by simp [propsC5, PyDict.get?])
  exact ⟨h.1, h.2 localSqs [] ⟨propsC5, Option.none, "stack", "queue", .none⟩ rfl⟩

/-- C6: a successful `create` returns SUCCESS, and its model carries exactly
the `QueueUrl` returned by the service's CreateQueue call and the `Arn`
obtained from the follow-up GetQueueAttributes lookup keyed by that URL —
both values come from the service, not from the client-supplied input. -/
theorem sqs_create_success_service_values {σ : Type} (client : SqsClient σ)
    (request : ResourceRequest) (s : σ) (ev : ProgressEvent) (s2 : σ)
    (trace : List SqsCall)
    (h : SQSQueueProvider.create client request s = (Except.ok ev, s2, trace)) :
    ev.status = OperationStatus.SUCCESS ∧
    ∃ qname attrs tags url s1 attrsResp arn,
      client.create_queue s qname attrs tags = (Except.ok url, s1) ∧
      client.get_queue_attributes s1 url ["QueueArn"] = (Except.ok attrsResp, s2) ∧
      attrsResp.lookup "QueueArn" = some arn ∧
      ev.resource_model.get? "QueueUrl" = some (.str url) ∧
      ev.resource_model.get? "Arn" = some (.str arn) ∧
      trace = [SqsCall.createQueue qname attrs tags,
        SqsCall.getQueueAttributes url ["QueueArn"]] := by
  simp only [SQSQueueProvider.create] at h
  rcases hc : _compile_sqs_queue_attributes (SQSQueueProvider.createModel request)
    with e | attrsC <;> rw [hc] at h
  · exact absurd h (by simp)
  rcases hi : pyItem (SQSQueueProvider.createModel request) "QueueName"
    with e | qnv <;> rw [hi] at h
  · exact absurd h (by simp)
  dsimp only at h
  rcases ha : asStr qnv with e | qname <;> rw [ha] at h
  · exact absurd h (by simp)
  dsimp only at h
  rcases ht : tagsToDict (pygetD (SQSQueueProvider.createModel request) "Tags" (.pylist .nil))
    with e | tags <;> rw [ht] at h
  · exact absurd h (by simp)
  dsimp only at h
  rcases hcr : client.create_queue s qname (some attrsC) (some tags) with ⟨r1, s1⟩
  rw [hcr] at h
  cases r1 with
  | error e =>
    dsimp only at h
    exact absurd h (by simp)
  | ok url =>
    dsimp only at h
    rcases hga : client.get_queue_attributes s1 url ["QueueArn"] with ⟨r2, s2x⟩
    rw [hga] at h
    cases r2 with
    | error e =>
      dsimp only at h
      exact absurd h (by simp)
    | ok attrsResp =>
      dsimp only at h
      cases hlk : attrsResp.lookup "QueueArn" with
      | none =>
        rw [hlk] at h
        dsimp only at h
        exact absurd h (by simp)
      | some arn =>
        rw [hlk] at h
        dsimp only at h
        simp only [Prod.mk.injEq] at h
        obtain ⟨hev, hs, htr⟩ := h
        have hev2 := Except.ok.inj hev
        subst hev2
        subst hs
        refine ⟨rfl, qname, some attrsC, some tags, url, s1, attrsResp, arn,
          hcr, hga, hlk, ?_, ?_, htr.symm⟩
        · rw [show (⟨OperationStatus.SUCCESS, ((SQSQueueProvider.createModel request).set
            "QueueUrl" (.str url)).set "Arn" (.str arn), request.custom_context⟩ :
              ProgressEvent).resource_model =
            ((SQSQueueProvider.createModel request).set "QueueUrl" (.str url)).set
              "Arn" (.str arn) from rfl]
          rw [PyDict.get?_set_ne _ _ _ _ (by decide), PyDict.get?_set_self]
        · rw [show (⟨OperationStatus.SUCCESS, ((SQSQueueProvider.createModel request).set
            "QueueUrl" (.str url)).set "Arn" (.str arn), request.custom_context⟩ :
              ProgressEvent).resource_model =
            ((SQSQueueProvider.createModel request).set "QueueUrl" (.str url)).set
              "Arn" (.str arn) from rfl]
          rw [PyDict.get?_set_self]

theorem sqs_create_success_service_values_witness :
    evC6.status = OperationStatus.SUCCESS ∧
    ∃ qname attrs tags url s1 attrsResp arn,
      localSqs.create_queue ([] : List QueueRec) qname attrs tags = (Except.ok url, s1) ∧
      localSqs.get_queue_attributes s1 url ["QueueArn"] = (Except.ok attrsResp, stateC6) ∧
      attrsResp.lookup "QueueArn" = some arn ∧
      evC6.resource_model.get? "QueueUrl" = some (.str url) ∧
      evC6.resource_model.get? "Arn" = some (.str arn) ∧
      traceC6 = [SqsCall.createQueue qname attrs tags,
        SqsCall.getQueueAttributes url ["QueueArn"]] :=
  sqs_create_success_service_values localSqs requestC6 [] evC6 stateC6 traceC6 (by rfl)

theorem delete_localSqs_success (request : ResourceRequest) (s : List QueueRec)
    (prev : PyDict) (qn : String)
    (hp : request.previous_state = some prev)
    (hn : prev.get? "QueueName" = some (.str qn)) :
    (SQSQueueProvider.delete localSqs request s).1 =
      Except.ok ⟨OperationStatus.SUCCESS, request.desired_state, .none⟩ := by
  simp only [SQSQueueProvider.delete, hp]
  rw [pyItem, hn]
  dsimp only [asStr]
  dsimp only [localSqs]
  cases hf : s.find? (fun q => q.name == qn) with
  | none => rfl
  | some q =>
    dsimp only
    cases hf2 : s.find? (fun q2 => q2.url == q.url) with
    | none => rfl
    | some q2 => rfl

/-- C7: a delete whose URL resolution fails with the queue-does-not-exist
signal returns SUCCESS instead of an error; against the modelled service,
deleting twice from the same previous state yields SUCCESS both times; and
any other service failure, of the URL resolution or of the deletion itself,
propagates uncaught. -/
theorem sqs_delete_idempotent :
    (∀ {σ : Type} (client : SqsClient σ) (request : ResourceRequest) (s s1 : σ)
      (prev : PyDict) (qn : String),
      request.previous_state = some prev →
      prev.get? "QueueName" = some (.str qn) →
      client.get_queue_url s qn = (Except.error SqsError.queueDoesNotExist, s1) →
      SQSQueueProvider.delete client request s =
        (Except.ok ⟨OperationStatus.SUCCESS, request.desired_state, .none⟩, s1,
          [SqsCall.getQueueUrl qn])) ∧
    (∀ (request : ResourceRequest) (s : List QueueRec) (prev : PyDict) (qn : String),
      request.previous_state = some prev →
      prev.get? "QueueName" = some (.str qn) →
      (SQSQueueProvider.delete localSqs request s).1 =
        Except.ok ⟨OperationStatus.SUCCESS, request.desired_state, .none⟩ ∧
      (SQSQueueProvider.delete localSqs request
          (SQSQueueProvider.delete localSqs request s).2.1).1 =
        Except.ok ⟨OperationStatus.SUCCESS, request.desired_state, .none⟩) ∧
    (∀ {σ : Type} (client : SqsClient σ) (request : ResourceRequest) (s s1 : σ)
      (prev : PyDict) (qn msg : String),
      request.previous_state = some prev →
      prev.get? "QueueName" = some (.str qn) →
      client.get_queue_url s qn = (Except.error (SqsError.other msg), s1) →
      SQSQueueProvider.delete client request s =
        (Except.error (PyErr.sqsFailure (SqsError.other msg)), s1,
          [SqsCall.getQueueUrl qn])) ∧
    (∀ {σ : Type} (client : SqsClient σ) (request : ResourceRequest) (s s1 s2 : σ)
      (prev : PyDict) (qn url msg : String),
      request.previous_state = some prev →
      prev.get? "QueueName" = some (.str qn) →
      client.get_queue_url s qn = (Except.ok url, s1) →
      client.delete_queue s1 url = (Except.error (SqsError.other msg), s2) →
      SQSQueueProvider.delete client request s =
        (Except.error (PyErr.sqsFailure (SqsError.other msg)), s2,
          [SqsCall.getQueueUrl qn, SqsCall.deleteQueue url])) := by
  refine ⟨?_, ?_, ?_, ?_⟩
  · intro σ client request s s1 prev qn hp hn hu
    simp only [SQSQueueProvider.delete, hp]
    rw [pyItem, hn]
    dsimp only [asStr]
    rw [hu]
  · intro request s prev qn hp hn
    exact ⟨delete_localSqs_success request s prev qn hp hn,
      delete_localSqs_success request _ prev qn hp hn⟩
  · intro σ client request s s1 prev qn msg hp hn hu
    simp only [SQSQueueProvider.delete, hp]
    rw [pyItem, hn]
    dsimp only [asStr]
    rw [hu]
  · intro σ client request s s1 s2 prev qn url msg hp hn hu hd
    simp only [SQSQueueProvider.delete, hp]
    rw [pyItem, hn]
    dsimp only [asStr]
    rw [hu]
    dsimp only
    rw [hd]

theorem sqs_delete_idempotent_witness :
    (SQSQueueProvider.delete localSqs requestC7 ([] : List QueueRec) =
      (Except.ok ⟨OperationStatus.SUCCESS, requestC7.desired_state, .none⟩, [],
        [SqsCall.getQueueUrl "q7"])) ∧
    ((SQSQueueProvider.delete localSqs requestC7 stateC7).1 =
        Except.ok ⟨OperationStatus.SUCCESS, requestC7.desired_state, .none⟩ ∧
      (SQSQueueProvider.delete localSqs requestC7
          (SQSQueueProvider.delete localSqs requestC7 stateC7).2.1).1 =
        Except.ok ⟨OperationStatus.SUCCESS, requestC7.desired_state, .none⟩) ∧
    (SQSQueueProvider.delete failCallClient requestC7 () =
      (Except.error (PyErr.sqsFailure (SqsError.other "boom")), (),
        [SqsCall.getQueueUrl "q7"])) ∧
    (SQSQueueProvider.delete failDeleteClient requestC7 () =
      (Except.error (PyErr.sqsFailure (SqsError.other "boom")), (),
        [SqsCall.getQueueUrl "q7", SqsCall.deleteQueue (urlOfName "q7")])) :=
  ⟨sqs_delete_idempotent.1 localSqs requestC7 [] [] _ "q7" rfl rfl rfl,
   sqs_delete_idempotent.2.1 requestC7 stateC7 _ "q7" rfl rfl,
   sqs_delete_idempotent.2.2.1 failCallClient requestC7 () () _ "q7" "boom" rfl rfl rfl,
   sqs_delete_idempotent.2.2.2 failDeleteClient requestC7 () () () _ "q7"
     (urlOfName "q7") "boom" rfl rfl rfl rfl⟩

/-- C9: an update without a previous state fails with the assertion error
before any service call and without touching the service state; with a
previous state present, the assertion failure is unreachable — no outcome of
`update` is the assertion error. -/
theorem sqs_update_requires_previous_state :
    (∀ {σ : Type} (client : SqsClient σ) (request : ResourceRequest) (s : σ),
      request.previous_state = Option.none →
      SQSQueueProvider.update client request s =
        (Except.error PyErr.assertionError, s, [])) ∧
    (∀ {σ : Type} (client : SqsClient σ) (request : ResourceRequest) (s : σ)
      (prev : PyDict), request.previous_state = some prev →
      (SQSQueueProvider.update client request s).1 ≠ Except.error PyErr.assertionError) := by
  constructor
  · intro σ client request s hp
    simp only [SQSQueueProvider.update, hp]
  · intro σ client request s prev hp hcontra
    simp only [SQSQueueProvider.update, hp] at hcontra
    rcases hi : pyItem prev "QueueName" with e | prevName <;> rw [hi] at hcontra
    · dsimp only at hcontra
      have he := Except.error.inj hcontra
      exact absurd ((pyItem_error hi).symm.trans he) (by simp)
    · dsimp only at hcontra
      by_cases hsr : SQSQueueProvider.update_should_replace request.desired_state prev
          prevName = true
      · rw [if_neg (by simp [hsr])] at hcontra
        rcases hu : pyItem prev "QueueUrl" with e | urlv <;> rw [hu] at hcontra
        · dsimp only at hcontra
          have he := Except.error.inj hcontra
          exact absurd ((pyItem_error hu).symm.trans he) (by simp)
        dsimp only at hcontra
        rcases ha : asStr urlv with e | prevUrl <;> rw [ha] at hcontra
        · dsimp only at hcontra
          have he := Except.error.inj hcontra
          obtain ⟨msg, hmsg⟩ := asStr_error ha
          rw [hmsg] at he
          exact absurd he (by simp)
        dsimp only at hcontra
        rcases hd : client.delete_queue s prevUrl with ⟨r1, s1⟩
        rw [hd] at hcontra
        cases r1 with
        | error e =>
          dsimp only at hcontra
          exact absurd (Except.error.inj hcontra) (by simp)
        | ok u =>
          dsimp only at hcontra
          rcases hcr : client.create_queue s1 (deriveDefaultQueueName request.stack_name
            request.logical_resource_id (pyget request.desired_state "FifoQueue").truthy)
            Option.none Option.none with ⟨r2, s2⟩
          rw [hcr] at hcontra
          cases r2 with
          | error e =>
            dsimp only at hcontra
            exact absurd (Except.error.inj hcontra) (by simp)
          | ok url =>
            dsimp only at hcontra
            rcases hga : client.get_queue_attributes s2 url ["QueueArn"] with ⟨r3, s3⟩
            rw [hga] at hcontra
            cases r3 with
            | error e =>
              dsimp only at hcontra
              exact absurd (Except.error.inj hcontra) (by simp)
            | ok resp =>
              dsimp only at hcontra
              cases hlk : resp.lookup "QueueArn" with
              | none =>
                rw [hlk] at hcontra
                dsimp only at hcontra
                exact absurd (Except.error.inj hcontra) (by simp)
              | some arn =>
                rw [hlk] at hcontra
                dsimp only at hcontra
                exact absurd hcontra (by simp)
      · rw [if_pos (by simp [hsr])] at hcontra
        dsimp only at hcontra
        exact absurd hcontra (by simp)

theorem sqs_update_requires_previous_state_witness :
    (SQSQueueProvider.update localSqs ⟨.nil, Option.none, "stack", "queue", .none⟩
        ([] : List QueueRec) = (Except.error PyErr.assertionError, [], [])) ∧
    ((SQSQueueProvider.update localSqs requestC2 ([] : List QueueRec)).1 ≠
      Except.error PyErr.assertionError) :=
  ⟨sqs_update_requires_previous_state.1 localSqs _ [] rfl,
   sqs_update_requires_previous_state.2 localSqs requestC2 [] prevC2 rfl⟩

/-- C8: when replacement is required and the service calls succeed, `update`
first deletes the old queue by the previous state's `QueueUrl`, then creates
the new queue under the freshly derived default name — the same fifo-suffix
rule as create, via `deriveDefaultQueueName` — passing neither attributes
nor tags, then fetches the new queue's ARN keyed by the returned URL, and
returns SUCCESS with the model's `QueueUrl` and `Arn` set to the new
queue's service-assigned values. -/
theorem sqs_update_replacement_path {σ : Type} (client : SqsClient σ)
    (request : ResourceRequest) (s : σ) (prev : PyDict) (prevName : PyVal)
    (prevUrl url arn : String) (s1 s2 s3 : σ) (attrsResp : List (String × String))
    (hp : request.previous_state = some prev)
    (hn : prev.get? "QueueName" = some prevName)
    (hsr : SQSQueueProvider.update_should_replace request.desired_state prev prevName
      = true)
    (hu : prev.get? "QueueUrl" = some (.str prevUrl))
    (hdel : client.delete_queue s prevUrl = (Except.ok (), s1))
    (hcr : client.create_queue s1
      (deriveDefaultQueueName request.stack_name request.logical_resource_id
        (pyget request.desired_state "FifoQueue").truthy) Option.none Option.none
      = (Except.ok url, s2))
    (hga : client.get_queue_attributes s2 url ["QueueArn"] = (Except.ok attrsResp, s3))
    (harn : attrsResp.lookup "QueueArn" = some arn) :
    SQSQueueProvider.update client request s =
      (Except.ok ⟨OperationStatus.SUCCESS,
        (request.desired_state.set "QueueUrl" (.str url)).set "Arn" (.str arn), .none⟩,
       s3,
       [SqsCall.deleteQueue prevUrl,
        SqsCall.createQueue (deriveDefaultQueueName request.stack_name
          request.logical_resource_id (pyget request.desired_state "FifoQueue").truthy)
          Option.none Option.none,
        SqsCall.getQueueAttributes url ["QueueArn"]]) := by
  simp only [SQSQueueProvider.update, hp]
  rw [pyItem, hn]
  dsimp only
  rw [if_neg (by simp [hsr])]
  rw [pyItem, hu]
  dsimp only [asStr]
  rw [hdel]
  dsimp only
  rw [hcr]
  dsimp only
  rw [hga]
  dsimp only
  rw [harn]

theorem sqs_update_replacement_path_witness :
    SQSQueueProvider.update localSqs requestC8 stateC8 =
      (Except.ok ⟨OperationStatus.SUCCESS,
        (requestC8.desired_state.set "QueueUrl"
          (.str (urlOfName (deriveDefaultQueueName "stack" "queue" false)))).set "Arn"
          (.str (arnOfName (deriveDefaultQueueName "stack" "queue" false))), .none⟩,
       stateC8after,
       [SqsCall.deleteQueue (urlOfName "old"),
        SqsCall.createQueue (deriveDefaultQueueName "stack" "queue" false)
          Option.none Option.none,
        SqsCall.getQueueAttributes (urlOfName (deriveDefaultQueueName "stack" "queue" false))
          ["QueueArn"]]) :=
  sqs_update_replacement_path localSqs requestC8 stateC8 prevC8 (.str "old")
    (urlOfName "old") (urlOfName (deriveDefaultQueueName "stack" "queue" false))
    (arnOfName (deriveDefaultQueueName "stack" "queue" false))
    [] stateC8after stateC8after [("QueueArn", arnOfName (deriveDefaultQueueName "stack" "queue" false))]
    rfl rfl rfl rfl rfl rfl rfl rfl

/-- C10: whenever the replacement path of `update` creates a queue, the name
used is the freshly derived default name — a function of the stack name, the
logical resource id and the desired fifo flag only — even when the desired
state carries an explicit `QueueName` (the very change that triggered the
replacement), and neither attributes nor tags are passed. -/
theorem sqs_update_replacement_ignores_desired_name {σ : Type} (client : SqsClient σ)
    (request : ResourceRequest) (s : σ) (prev : PyDict) (prevName : PyVal)
    (newName : String)
    (hp : request.previous_state = some prev)
    (hn : prev.get? "QueueName" = some prevName)
    (hq : request.desired_state.get? "QueueName" = some (.str newName))
    (hdiff : pyEq (.str newName) prevName = false) :
    ∀ (nm : String) (attrs tags : Option (List (String × String))),
      SqsCall.createQueue nm attrs tags ∈ (SQSQueueProvider.update client request s).2.2 →
      nm = deriveDefaultQueueName request.stack_name request.logical_resource_id
        (pyget request.desired_state "FifoQueue").truthy ∧
      attrs = Option.none ∧ tags = Option.none := by
  intro nm attrs tags hmem
  simp only [SQSQueueProvider.update, hp] at hmem
  rw [pyItem, hn] at hmem
  dsimp only at hmem
  have hsr : SQSQueueProvider.update_should_replace request.desired_state prev prevName
      = true := by
    rw [SQSQueueProvider.update_should_replace]
    rw [pygetD, hq]
    simp [hdiff]
  rw [if_neg (by simp [hsr])] at hmem
  rcases hu : pyItem prev "QueueUrl" with e | urlv <;> rw [hu] at hmem
  · simp at hmem
  dsimp only at hmem
  rcases ha : asStr urlv with e | prevUrl <;> rw [ha] at hmem
  · simp at hmem
  dsimp only at hmem
  rcases hd : client.delete_queue s prevUrl with ⟨r1, s1⟩
  rw [hd] at hmem
  cases r1 with
  | error e =>
    dsimp only at hmem
    simp at hmem
  | ok u =>
    dsimp only at hmem
    rcases hcr : client.create_queue s1 (deriveDefaultQueueName request.stack_name
      request.logical_resource_id (pyget request.desired_state "FifoQueue").truthy)
      Option.none Option.none with ⟨r2, s2⟩
    rw [hcr] at hmem
    cases r2 with
    | error e =>
      dsimp only at hmem
      simp at hmem
      exact hmem
    | ok url =>
      dsimp only at hmem
      rcases hga : client.get_queue_attributes s2 url ["QueueArn"] with ⟨r3, s3⟩
      rw [hga] at hmem
      cases r3 with
      | error e =>
        dsimp only at hmem
        simp at hmem
        exact hmem
      | ok resp =>
        dsimp only at hmem
        cases hlk : resp.lookup "QueueArn" with
        | none =>
          rw [hlk] at hmem
          dsimp only at hmem
          simp at hmem
          exact hmem
        | some arn =>
          rw [hlk] at hmem
          dsimp only at hmem
          simp at hmem
          exact hmem

theorem sqs_update_replacement_ignores_desired_name_witness :
    deriveDefaultQueueName "stack" "queue" false =
      deriveDefaultQueueName requestC8.stack_name requestC8.logical_resource_id
        (pyget requestC8.desired_state "FifoQueue").truthy ∧
    (Option.none : Option (List (String × String))) = Option.none ∧
    (Option.none : Option (List (String × String))) = Option.none := by
  have h := sqs_update_replacement_ignores_desired_name localSqs requestC8 stateC8
    prevC8 (.str "old") "new" rfl rfl rfl rfl
    (deriveDefaultQueueName "stack" "queue" false) Option.none Option.none
    (by
      rw [show (SQSQueueProvider.update localSqs requestC8 stateC8).2.2 =
        [SqsCall.deleteQueue (urlOfName "old"),
         SqsCall.createQueue (deriveDefaultQueueName "stack" "queue" false)
           Option.none Option.none,
         SqsCall.getQueueAttributes
           (urlOfName (deriveDefaultQueueName "stack" "queue" false))
           ["QueueArn"]] from rfl]
      exact List.mem_cons_of_mem _ (List.mem_cons_self _ _))
  exact h
